import Mathlib

/-!
# StatLine — verification of the spec claims against a shallow embedding

This file embeds, in Lean, the parts of the StatLine code base that the
frozen claims C1–C10 are about:

* `src/lib/utils/player-matching.ts` — jersey/name normalisation, the
  two-phase player matcher, and the jersey→row mapping;
* `src/unnamed/part_009` — `createOrderedFootballRoster`, the football slot
  assigner;
* `src/lib/volleyball/ordering.ts` — `createOrderedVolleyballRoster`;
* `src/lib/parsers/volleyball.ts` — the merged-digit splitter
  `splitRH2B3BHR` and the merged-token handling of `parseBattingTokens`;
* `src/lib/football/cat-stats.ts` — the category selection of
  `getFootballCatStats`;
* `src/lib/parsers/wmt-api.ts` — the season-stat selection and the pure
  per-player mapping of `parseWmtBaseballApi`.

Modelling conventions. JavaScript strings are Lean `String`s / `List Char`;
JavaScript numbers that the embedded code only ever uses at integral values
are unbounded `Nat`/`Int` (the jersey strings, stat counts and slot numbers
handled here are far below 2^53, where JS numbers are exact on integers);
`parseInt` is modelled by `parseIntJS` including its whitespace/sign/hex
prefix handling and its NaN result (`none`); `undefined`/absent values are
`Option`; JS `Map`/`Set` are association lists / membership lists with the
same insertion-order semantics; `toLowerCase` is modelled on ASCII (any
character whose lower-case form is outside `[a-z0-9]` is removed by the
normaliser on both sides of the model).
-/

/-- JS whitespace characters relevant to `trim`/`parseInt` (space, tab,
newline, vertical tab, form feed, carriage return, NBSP, BOM). -/
def jsIsSpace (c : Char) : Bool :=
  c.toNat == 32 || c.toNat == 9 || c.toNat == 10 || c.toNat == 11 ||
  c.toNat == 12 || c.toNat == 13 || c.toNat == 160 || c.toNat == 65279

/-- Decimal digit character test (`'0'`–`'9'`). -/
def isDigitCh (c : Char) : Bool :=
  48 ≤ c.toNat && c.toNat ≤ 57

/-- Value of a decimal digit character. -/
def digitVal (c : Char) : Nat :=
  c.toNat - 48

/-- Hexadecimal digit character test. -/
def isHexDigitCh (c : Char) : Bool :=
  isDigitCh c || (97 ≤ c.toNat && c.toNat ≤ 102) || (65 ≤ c.toNat && c.toNat ≤ 70)

/-- Value of a hexadecimal digit character. -/
def hexDigitVal (c : Char) : Nat :=
  if isDigitCh c then c.toNat - 48
  else if 97 ≤ c.toNat then c.toNat - 87
  else c.toNat - 55

/-- Value of a big-endian digit list (base 10). -/
def digitsValBE (ds : List Nat) : Nat :=
  ds.foldl (fun a d => 10 * a + d) 0

/-- Value of a big-endian digit list (base 16). -/
def hexValBE (ds : List Nat) : Nat :=
  ds.foldl (fun a d => 16 * a + d) 0

/-- Value of a little-endian digit list (base 10); the specification-side
companion of `digitsValBE` used in proofs. -/
def ofDigitsLE : List Nat → Nat
  | [] => 0
  | d :: ds => d + 10 * ofDigitsLE ds

/-- Little-endian decimal digits of `n`, with explicit fuel (structural
recursion; `natDigitsLE` supplies `n` itself as fuel). `n = 0` yields `[]`. -/
def natDigitsAux : Nat → Nat → List Nat
  | 0, _ => []
  | fuel + 1, n => if n = 0 then [] else n % 10 :: natDigitsAux fuel (n / 10)

/-- Little-endian decimal digits of `n` (empty for `0`). -/
def natDigitsLE (n : Nat) : List Nat :=
  natDigitsAux n n

/-- Big-endian decimal digits of `n`, rendering `0` as `[0]` — the digit
string JS `String(n)` produces for a non-negative integer. -/
def natDigitsBE (n : Nat) : List Nat :=
  if n = 0 then [0] else (natDigitsLE n).reverse

/-- Character of a decimal digit. -/
def digitCh (d : Nat) : Char :=
  Char.ofNat (48 + d)

/-- Canonical decimal rendering of a natural number — JS `String(n)`. -/
def natRepr (n : Nat) : String :=
  ⟨(natDigitsBE n).map digitCh⟩

/-- Canonical decimal rendering of an integer — JS `String(i)` for exact
integers. -/
def intRepr (i : Int) : String :=
  if i < 0 then "-" ++ natRepr i.natAbs else natRepr i.toNat

/-- Longest-decimal-prefix parse: `none` when the text begins with no
decimal digit (the NaN case of `parseInt`). -/
def parseDec (l : List Char) : Option Nat :=
  let ds := l.takeWhile isDigitCh
  if ds.isEmpty then none else some (digitsValBE (ds.map digitVal))

/-- Longest-hex-prefix parse after a `0x`/`0X` prefix. -/
def parseHex (l : List Char) : Option Nat :=
  let ds := l.takeWhile isHexDigitCh
  if ds.isEmpty then none else some (hexValBE (ds.map hexDigitVal))

/-- Magnitude part of JS `parseInt` with no explicit radix: a `0x`/`0X`
prefix selects hexadecimal, otherwise decimal. -/
def parseIntMag : List Char → Option Nat
  | [] => parseDec []
  | [c] => parseDec [c]
  | c0 :: c1 :: t =>
    if c0 = '0' ∧ (c1 = 'x' ∨ c1 = 'X') then parseHex t
    else parseDec (c0 :: c1 :: t)

/-- JS `parseInt(s)` (radix argument omitted): skip leading whitespace, an
optional sign, then the longest valid digit prefix; `none` models NaN.
Values are exact unbounded integers. -/
def parseIntJS (s : String) : Option Int :=
  match s.toList.dropWhile jsIsSpace with
  | '+' :: t => (parseIntMag t).map (fun n => (n : Int))
  | '-' :: t => (parseIntMag t).map (fun n => -(n : Int))
  | l => (parseIntMag l).map (fun n => (n : Int))

/-! ## `src/lib/utils/player-matching.ts` -/

/-- ASCII lower-casing of one character (JS `toLowerCase` restricted to
ASCII; see the header note). -/
def jsToLower (c : Char) : Char :=
  if 65 ≤ c.toNat ∧ c.toNat ≤ 90 then Char.ofNat (c.toNat + 32) else c

/-- Keep test of `normalizeName`: characters in `[a-z0-9]`. -/
def isLowerAlnum (c : Char) : Bool :=
  (97 ≤ c.toNat && c.toNat ≤ 122) || (48 ≤ c.toNat && c.toNat ≤ 57)

/-- `normalizeName`: lower-case, then strip everything outside `[a-z0-9]`. -/
def normalizeName (name : String) : String :=
  ⟨(name.toList.map jsToLower).filter isLowerAlnum⟩

/-- `normalizeJersey`: `"00"` and `"0"` are returned unchanged; otherwise
`String(parseInt(jersey) || jersey)` — the canonical decimal form of the
parsed value unless `parseInt` gives NaN or 0 (falsy), in which case the
input string itself. -/
def normalizeJersey (jersey : String) : String :=
  if jersey = "00" ∨ jersey = "0" then jersey
  else
    match parseIntJS jersey with
    | some n => if n ≠ 0 then intRepr n else jersey
    | none => jersey

/-- `jerseyToRow`: `"0"` ↦ 90, `"00"` ↦ 99, parsed values in `1–89` and
`90–98` map to themselves, anything else (including NaN) ↦ `0` (invalid). -/
def jerseyToRow (jersey : String) : Int :=
  if jersey = "0" then 90
  else if jersey = "00" then 99
  else
    match parseIntJS jersey with
    | some n =>
      if 1 ≤ n ∧ n < 90 then n
      else if 90 ≤ n ∧ n ≤ 98 then n
      else 0
    | none => 0

/-- JS `trim` over a character list. -/
def jsTrim (l : List Char) : List Char :=
  ((l.dropWhile jsIsSpace).reverse.dropWhile jsIsSpace).reverse

/-- Maximal non-whitespace runs of a character list (helper for
`split(/\s+/)` on trimmed input); `acc` holds the current run reversed. -/
def wordsAux : List Char → List Char → List (List Char)
  | [], acc => if acc.isEmpty then [] else [acc.reverse]
  | c :: rest, acc =>
    if jsIsSpace c then
      if acc.isEmpty then wordsAux rest [] else acc.reverse :: wordsAux rest []
    else wordsAux rest (c :: acc)

/-- JS `s.trim().split(/\s+/)`: the whitespace-separated words of `s`, with
the JS corner case that an all-whitespace string yields `[""]`. -/
def jsTrimSplitWs (l : List Char) : List (List Char) :=
  let t := jsTrim l
  if t.isEmpty then [[]] else wordsAux t []

/-- `extractLastName`: text before the first comma (trimmed) when a comma is
present, otherwise the last whitespace-separated word. -/
def extractLastName (name : String) : String :=
  if name.toList.contains ',' then
    ⟨jsTrim (name.toList.takeWhile (fun c => c ≠ ','))⟩
  else
    ⟨(jsTrimSplitWs name.toList).getLastD []⟩

/-- `extractFirstName`: first word of the segment between the first and
second commas when a comma is present, otherwise the first
whitespace-separated word. -/
def extractFirstName (name : String) : String :=
  if name.toList.contains ',' then
    let seg := ((name.toList.dropWhile (fun c => c ≠ ',')).drop 1).takeWhile
      (fun c => c ≠ ',')
    ⟨(jsTrimSplitWs seg).headD []⟩
  else
    ⟨(jsTrimSplitWs name.toList).headD []⟩

/-- JS `s.includes(sub)`: `sub` occurs contiguously inside `s`. -/
def jsIncludes (s sub : String) : Bool :=
  s.toList.tails.any (fun t => sub.toList.isPrefixOf t)

/-- `looseNameMatch`: either last names or first names agree exactly or by
containment, after normalisation. -/
def looseNameMatch (rosterFirst rosterLast statsName : String) : Bool :=
  let rFirst := normalizeName rosterFirst
  let rLast := normalizeName rosterLast
  let statsFirst := normalizeName (extractFirstName statsName)
  let statsLast := normalizeName (extractLastName statsName)
  let lastMatches := rLast == statsLast || jsIncludes rLast statsLast ||
    jsIncludes statsLast rLast
  let firstMatches := rFirst == statsFirst || jsIncludes rFirst statsFirst ||
    jsIncludes statsFirst rFirst
  lastMatches || firstMatches

/-- `exactNameMatch`: both normalised first and last names agree exactly. -/
def exactNameMatch (rosterFirst rosterLast statsName : String) : Bool :=
  let rFirst := normalizeName rosterFirst
  let rLast := normalizeName rosterLast
  let statsFirst := normalizeName (extractFirstName statsName)
  let statsLast := normalizeName (extractLastName statsName)
  rFirst == statsFirst && rLast == statsLast

/-- `primaryMatch`: normalised jerseys equal, then `looseNameMatch`. -/
def primaryMatch (rosterJersey rosterFirst rosterLast statsJersey
    statsName : String) : Bool :=
  normalizeJersey rosterJersey == normalizeJersey statsJersey &&
    looseNameMatch rosterFirst rosterLast statsName

/-- `fallbackMatch`: alias of `exactNameMatch`. -/
def fallbackMatch (rosterFirst rosterLast statsName : String) : Bool :=
  exactNameMatch rosterFirst rosterLast statsName

/-- Roster-side key of `findMatchingStats` (`firstName`, `lastName`,
`number`). -/
structure RosterId where
  firstName : String
  lastName : String
  number : String
deriving DecidableEq, Repr

/-- `findMatchingStats` — generic over the stat-record type `α` with its
`number`/`name` projections (the TS generic bound `{number; name}`):
phase 1 finds a primary (jersey + loose name) match, phase 2 falls back to
an exact-name match on a different jersey. -/
def findMatchingStats {α : Type} (statNumber statName : α → String)
    (rosterPlayer : RosterId) (allStats : List α) : Option α :=
  if allStats.isEmpty then none
  else
    match allStats.find? (fun stats =>
      primaryMatch rosterPlayer.number rosterPlayer.firstName
        rosterPlayer.lastName (statNumber stats) (statName stats)) with
    | some primaryResult => some primaryResult
    | none =>
      allStats.find? (fun stats =>
        normalizeJersey (statNumber stats) != normalizeJersey rosterPlayer.number &&
          fallbackMatch rosterPlayer.firstName rosterPlayer.lastName
            (statName stats))

/-! ## `src/lib/parsers/volleyball.ts` — the merged-digit splitter

`splitRH2B3BHR` and the merged-token handling of `parseBattingTokens` are
embedded over big-endian digit lists (`List Nat`, one entry per character of
the merged token; the claims concern all-digit tokens, on which JS
`parseInt` of a substring is exactly the value of those digits).
`m.drop a |>.take b` is `merged.substring(a, a + b)`. -/

/-- A candidate partition `R/H/2B/3B/HR` produced by the splitter. -/
structure Split5 where
  r : Nat
  h : Nat
  d2 : Nat
  d3 : Nat
  hr : Nat
deriving DecidableEq, Repr

/-- `maxAB` of `splitRH2B3BHR`: `Math.max(ab, 100)` (pinch runners). -/
def maxABof (ab : Nat) : Nat :=
  max ab 100

/-- `maxH` of `splitRH2B3BHR`: `ab` when positive, otherwise 50. -/
def maxHof (ab : Nat) : Nat :=
  if ab > 0 then ab else 50

/-- The 6-value pass of `splitRH2B3BHR`: all partitions
`R+H+2B+3B+HR+XB` (each of `R,H,2B,3B,HR` 1–2 digits, `XB` 1–2 digits)
passing the constraint checks, in the order the nested loops emit them.
The loop guards `len ≤ 2 && bound` become filters on `[1, 2]`; a failed
constraint check (`continue`) contributes `[]`. -/
def results6 (m : List Nat) (ab : Nat) : List Split5 :=
  let L := m.length
  ([1, 2].filter (fun rl => rl < L - 4)).flatMap (fun rl =>
    let r := digitsValBE (m.take rl)
    if r > maxABof ab then [] else
    ([1, 2].filter (fun hl => rl + hl < L - 3)).flatMap (fun hl =>
      let h := digitsValBE ((m.drop rl).take hl)
      if h > maxHof ab then [] else
      let rest := m.drop (rl + hl)
      ([1, 2].filter (fun d2l => d2l < rest.length - 2)).flatMap (fun d2l =>
        let d2 := digitsValBE (rest.take d2l)
        if d2 > h then [] else
        ([1, 2].filter (fun d3l => d2l + d3l < rest.length - 1)).flatMap (fun d3l =>
          let d3 := digitsValBE ((rest.drop d2l).take d3l)
          if d3 > h then [] else
          let hrXb := rest.drop (d2l + d3l)
          ([1, 2].filter (fun hrl => hrl < hrXb.length)).flatMap (fun hrl =>
            let hr := digitsValBE (hrXb.take hrl)
            if hr > h then [] else
            if d2 + d3 + hr > h then [] else
            let xbs := hrXb.drop hrl
            if xbs.length = 0 ∨ xbs.length > 2 then [] else
            if digitsValBE xbs = d2 + d3 + hr then [⟨r, h, d2, d3, hr⟩]
            else [])))))

/-- The 5-value fallback pass of `splitRH2B3BHR`: all partitions
`R+H+2B+3B+HR` passing the constraint checks, in loop order. -/
def results5 (m : List Nat) (ab : Nat) : List Split5 :=
  let L := m.length
  ([1, 2].filter (fun rl => rl < L - 3)).flatMap (fun rl =>
    let r := digitsValBE (m.take rl)
    if r > maxABof ab then [] else
    ([1, 2].filter (fun hl => rl + hl < L - 2)).flatMap (fun hl =>
      let h := digitsValBE ((m.drop rl).take hl)
      if h > maxHof ab then [] else
      let rest := m.drop (rl + hl)
      ([1, 2].filter (fun d2l => d2l < rest.length - 1)).flatMap (fun d2l =>
        let d2 := digitsValBE (rest.take d2l)
        if d2 > h then [] else
        ([1, 2].filter (fun d3l => d2l + d3l < rest.length)).flatMap (fun d3l =>
          let d3 := digitsValBE ((rest.drop d2l).take d3l)
          if d3 > h then [] else
          let hrs := rest.drop (d2l + d3l)
          if hrs.length = 0 ∨ hrs.length > 2 then [] else
          let hr := digitsValBE hrs
          if hr > h then [] else
          if d2 + d3 + hr > h then [] else
          [⟨r, h, d2, d3, hr⟩]))))

/-- First element with maximal `h` — the head of the JS stable sort by
descending `h` (`results.sort((a, b) => b[1] - a[1]); return results[0]`),
which is also `results[0]` itself when the list is a singleton. -/
def bestByH : List Split5 → Option Split5
  | [] => none
  | x :: xs => some (xs.foldl (fun acc y => if y.h > acc.h then y else acc) x)

/-- `splitRH2B3BHR`: reject tokens shorter than 4; try the 6-value pass on
tokens of length ≥ 6 (returning its best candidate when any exists); fall
back to the 5-value pass on tokens of length ≥ 5. -/
def splitRH2B3BHR (m : List Nat) (ab : Nat) : Option Split5 :=
  if m.length < 4 then none
  else
    match if 6 ≤ m.length then results6 m ab else [] with
    | x :: xs => bestByH (x :: xs)
    | [] =>
      if m.length < 5 then none
      else bestByH (results5 m ab)

/-- The merged `R+H+2B+3B+HR` handling of `parseBattingTokens`
(volleyball.ts lines 578–599): tokens of length ≥ 5 take the splitter
result or stay all-zero; a length-4 token consults the splitter and falls
back to `R := first digit`; a shorter non-empty token is read entirely as
`R`; an empty token leaves everything zero. -/
def parseMergedRH (m : List Nat) (ab : Nat) : Split5 :=
  if 5 ≤ m.length then (splitRH2B3BHR m ab).getD ⟨0, 0, 0, 0, 0⟩
  else if m.length = 4 then
    match splitRH2B3BHR m ab with
    | some t => t
    | none => ⟨m.headD 0, 0, 0, 0, 0⟩
  else if 0 < m.length then ⟨digitsValBE m, 0, 0, 0, 0⟩
  else ⟨0, 0, 0, 0, 0⟩

/-! ## `src/unnamed/part_009` — `createOrderedFootballRoster` -/

/-- Roster `Player` (part_009). -/
structure Player where
  jersey : String
  name : String
  height : String
  weight : String
  year : String
  hometown : String
  position : String
deriving DecidableEq, Repr

/-- `FootballPassingStats` (football.ts parser). -/
structure FootballPassingStats where
  comp : Nat
  att : Nat
  int : Nat
  yds : Nat
  td : Nat
  long : Nat
  avgGame : Nat
deriving DecidableEq, Repr

/-- `FootballRushingStats` (`net` can be negative). -/
structure FootballRushingStats where
  att : Nat
  gain : Nat
  loss : Nat
  net : Int
  avg : Int
  td : Nat
  long : Nat
  avgGame : Nat
deriving DecidableEq, Repr

/-- `FootballReceivingStats`. -/
structure FootballReceivingStats where
  no : Nat
  yds : Nat
  avg : Int
  td : Nat
  long : Nat
  avgGame : Nat
deriving DecidableEq, Repr

/-- `FootballDefensiveStats` (`tfl`/`sacks`/`int`/`fr` are display strings
in the source). -/
structure FootballDefensiveStats where
  solo : Nat
  asst : Nat
  tot : Nat
  tfl : String
  sacks : String
  int : String
  pbu : Nat
  qbh : Nat
  ff : Nat
  fr : String
  blk : Nat
  saf : Nat
deriving DecidableEq, Repr

/-- `FootballKickingStats`. -/
structure FootballKickingStats where
  fgm : Nat
  fga : Nat
  pct : Nat
  long : Nat
  pat : String
  pts : Nat
deriving DecidableEq, Repr

/-- `FootballPuntingStats`. -/
structure FootballPuntingStats where
  no : Nat
  yds : Nat
  avg : Nat
  long : Nat
  tb : Nat
  fc : Nat
  i20 : Nat
  plus50 : Nat
  blk : Nat
deriving DecidableEq, Repr

/-- `FootballReturnStats` (the optional `returns` group). -/
structure FootballReturnStats where
  krNo : Nat
  krYds : Nat
  krTd : Nat
  krLong : Nat
  prNo : Nat
  prYds : Nat
  prTd : Nat
  prLong : Nat
deriving DecidableEq, Repr

/-- `FootballPlayerRaw`: one stat-sheet entry; every stat group is
optional. -/
structure FootballPlayerRaw where
  jersey : String
  name : String
  passing : Option FootballPassingStats := none
  rushing : Option FootballRushingStats := none
  receiving : Option FootballReceivingStats := none
  defense : Option FootballDefensiveStats := none
  kicking : Option FootballKickingStats := none
  punting : Option FootballPuntingStats := none
  returns : Option FootballReturnStats := none
deriving DecidableEq, Repr

/-- `OrderedFootballPlayer`: a roster player plus assigned `slot`
(1–99 active, `-1` inactive), the displayed jersey text, and the matched
stats, when any. -/
structure OrderedFootballPlayer where
  player : Player
  slot : Int
  display : String
  stats : Option FootballPlayerRaw
deriving DecidableEq, Repr

/-- The `usedStats` key: `stat.name + stat.jersey`. -/
def statKey (st : FootballPlayerRaw) : String :=
  st.name ++ st.jersey

/-- `matchFootballPlayerStats`: primary pass (unused entry, equal
normalised jersey, loose name match), then fallback pass (unused entry,
different normalised jersey, exact name match). -/
def matchFootballPlayerStats (player : Player) (stats : List FootballPlayerRaw)
    (usedStats : List String) : Option FootballPlayerRaw :=
  let rosterFirst := extractFirstName player.name
  let rosterLast := extractLastName player.name
  match stats.find? (fun stat =>
    !usedStats.contains (statKey stat) &&
      normalizeJersey stat.jersey == normalizeJersey player.jersey &&
      looseNameMatch rosterFirst rosterLast stat.name) with
  | some primaryResult => some primaryResult
  | none =>
    stats.find? (fun stat =>
      !usedStats.contains (statKey stat) &&
        !(normalizeJersey stat.jersey == normalizeJersey player.jersey) &&
        exactNameMatch rosterFirst rosterLast stat.name)

/-- Step 1 of `createOrderedFootballRoster`: fold over the roster, matching
each player against the still-unused stat entries and recording used keys. -/
def matchAllStep (safeStats : List FootballPlayerRaw)
    (st : List String × List (Player × Option FootballPlayerRaw))
    (player : Player) : List String × List (Player × Option FootballPlayerRaw) :=
  match matchFootballPlayerStats player safeStats st.1 with
  | some matchedStat =>
    (st.1 ++ [statKey matchedStat], st.2 ++ [(player, some matchedStat)])
  | none => (st.1, st.2 ++ [(player, none)])

/-- The matched roster (step 1 output): each roster player in order, with
its optional stats. -/
def playersWithStats (roster : List Player) (stats : List FootballPlayerRaw) :
    List (Player × Option FootballPlayerRaw) :=
  (roster.foldl (matchAllStep stats) ([], [])).2

/-- Grouping key of step 2: `parseInt(p.jersey)`, with NaN sent to `-999`. -/
def jerseyKey (p : Player) : Int :=
  match parseIntJS p.jersey with
  | some n => n
  | none => -999

/-- The distinct jersey keys, sorted ascending (`jerseyNumbers`). -/
def sortedJerseyKeys (pws : List (Player × Option FootballPlayerRaw)) :
    List Int :=
  ((pws.map (fun p => jerseyKey p.1)).dedup).mergeSort (fun a b => decide (a ≤ b))

/-- The members of one jersey group, in roster order. -/
def groupOf (pws : List (Player × Option FootballPlayerRaw)) (k : Int) :
    List (Player × Option FootballPlayerRaw) :=
  pws.filter (fun p => jerseyKey p.1 == k)

/-- The JS stable sort of a duplicate group by `stats` presence
(entries with stats first, each side keeping roster order). -/
def statsFirstSort (g : List (Player × Option FootballPlayerRaw)) :
    List (Player × Option FootballPlayerRaw) :=
  g.filter (fun p => p.2.isSome) ++ g.filter (fun p => !p.2.isSome)

/-- Building one output entry: spread of the player plus `slot`, `display`
(the worn jersey text) and the matched stats. -/
def mkOrdered (p : Player × Option FootballPlayerRaw) (slot : Int) :
    OrderedFootballPlayer :=
  ⟨p.1, slot, p.1.jersey, p.2⟩

/-- JS `Map.set` on an association list: replace in place when the key is
present, append otherwise. -/
def mapSet (m : List (Nat × OrderedFootballPlayer)) (k : Nat)
    (v : OrderedFootballPlayer) : List (Nat × OrderedFootballPlayer) :=
  if m.any (fun kv => kv.1 == k) then
    m.map (fun kv => if kv.1 == k then (k, v) else kv)
  else m ++ [(k, v)]

/-- State of step 2: the slot assignment (`slot → player`), the occupied
slots, and the queue of players still needing a slot. -/
structure FbAssignState where
  assignment : List (Nat × OrderedFootballPlayer)
  occupied : List Nat
  needsSlot : List (Player × Option FootballPlayerRaw)
deriving Repr

/-- Step 2, one jersey group: a unique valid jersey takes its natural slot;
a unique invalid jersey is queued; duplicates are sorted stats-first, the
first takes the natural slot when valid (queued otherwise) and the rest are
queued. (The `[]` branch never arises: every processed key has a nonempty
group.) -/
def processJerseyGroup (pws : List (Player × Option FootballPlayerRaw))
    (st : FbAssignState) (k : Int) : FbAssignState :=
  match groupOf pws k with
  | [] => st
  | [p] =>
    if 1 ≤ k ∧ k ≤ 99 then
      { st with
        occupied := st.occupied ++ [k.toNat]
        assignment := mapSet st.assignment k.toNat (mkOrdered p k) }
    else { st with needsSlot := st.needsSlot ++ [p] }
  | _ :: _ :: _ =>
    match statsFirstSort (groupOf pws k) with
    | [] => st
    | firstPlayer :: rest =>
      if 1 ≤ k ∧ k ≤ 99 then
        { st with
          occupied := st.occupied ++ [k.toNat]
          assignment := mapSet st.assignment k.toNat (mkOrdered firstPlayer k)
          needsSlot := st.needsSlot ++ rest }
      else { st with needsSlot := st.needsSlot ++ (firstPlayer :: rest) }

/-- Step 2 over all sorted jersey keys. -/
def assignNaturalSlots (pws : List (Player × Option FootballPlayerRaw)) :
    FbAssignState :=
  (sortedJerseyKeys pws).foldl (processJerseyGroup pws) ⟨[], [], []⟩

/-- The lowest slot in `1..99` not yet occupied (`for slot = 1; ≤ 99`). -/
def firstFreeSlot (occupied : List Nat) : Option Nat :=
  (List.range' 1 99).find? (fun s => !occupied.contains s)

/-- State of step 3: assignment, occupied slots, inactive players. -/
structure FbPlaceState where
  assignment : List (Nat × OrderedFootballPlayer)
  occupied : List Nat
  inactive : List OrderedFootballPlayer
deriving Repr

/-- Step 3, one queued player: place into the first free slot, or mark
inactive (`slot := -1`) when none is left. -/
def placeNeedy (st : FbPlaceState) (p : Player × Option FootballPlayerRaw) :
    FbPlaceState :=
  match firstFreeSlot st.occupied with
  | some foundSlot =>
    { st with
      occupied := st.occupied ++ [foundSlot]
      assignment := mapSet st.assignment foundSlot (mkOrdered p foundSlot) }
  | none => { st with inactive := st.inactive ++ [mkOrdered p (-1)] }

/-- `createOrderedFootballRoster`: match, assign natural slots, place the
queued players, then emit the active players sorted by slot followed by the
inactive players. -/
def createOrderedFootballRoster (roster : List Player)
    (stats : List FootballPlayerRaw) : List OrderedFootballPlayer :=
  let pws := playersWithStats roster stats
  let s2 := assignNaturalSlots pws
  let s3 := s2.needsSlot.foldl placeNeedy ⟨s2.assignment, s2.occupied, []⟩
  let activeBySlot :=
    (s3.assignment.mergeSort (fun a b => decide (a.1 ≤ b.1))).map (fun kv => kv.2)
  activeBySlot ++ s3.inactive

/-! ## `src/lib/volleyball/ordering.ts` — `createOrderedVolleyballRoster` -/

/-- `RosterPlayer` (roster/extractor.ts). -/
structure RosterPlayer where
  lastName : String
  firstName : String
  number : String
  position : String
  bats : String
  throws : String
  hometown : String
  state : String
  height : String
  weight : String
  year : String
  age : String
deriving DecidableEq, Repr

/-- `VolleyballPlayerRaw` (volleyball.ts parser). -/
structure VolleyballPlayerRaw where
  number : String
  name : String
  sp : Nat
  k : Nat
  kPerSet : String
  e : Nat
  ta : Nat
  pct : String
  a : Nat
  aPerSet : String
  sa : Nat
  se : Nat
  saPerSet : String
  re : Nat
  dig : Nat
  digPerSet : String
  bs : Nat
  ba : Nat
  blk : String
  blkPerSet : String
  be : Nat
  bhe : Nat
  pts : String
deriving DecidableEq, Repr

/-- The populated-player payload of an `OrderedVolleyballPlayer` row. -/
structure VolleyballRowPlayer where
  name : String
  firstName : String
  lastName : String
  pos : String
  height : String
  hometown : String
  year : String
  stats : Option VolleyballPlayerRaw
deriving DecidableEq, Repr

/-- `OrderedVolleyballPlayer`: one of the 99 display rows. -/
structure OrderedVolleyballPlayer where
  row : Nat
  displayJersey : String
  player : Option VolleyballRowPlayer
deriving DecidableEq, Repr

/-- The initial empty rows 1–99 (`displayJersey` is the row number, with 90
shown as `"0"` and 99 as `"00"`). -/
def volleyballInitRows : List OrderedVolleyballPlayer :=
  (List.range' 1 99).map (fun i =>
    ⟨i, if i = 90 then "0" else if i = 99 then "00" else natRepr i, none⟩)

/-- Processing one roster player: skip when `jerseyToRow` is 0, otherwise
overwrite that row (JS `Map.set` on a key that is always present in the
initial 1–99 map keeps its position). -/
def volleyballPlaceRoster (playerStats : List VolleyballPlayerRaw)
    (rows : List OrderedVolleyballPlayer) (player : RosterPlayer) :
    List OrderedVolleyballPlayer :=
  let rowNum := jerseyToRow player.number
  if rowNum = 0 then rows
  else
    let stats := findMatchingStats (fun v => v.number) (fun v => v.name)
      ⟨player.firstName, player.lastName, player.number⟩ playerStats
    let rosterFullName := player.firstName ++ " " ++ player.lastName
    rows.map (fun r =>
      if (r.row : Int) = rowNum then
        ⟨r.row, player.number,
          some ⟨rosterFullName, player.firstName, player.lastName,
            player.position, player.height, player.hometown, player.year,
            stats⟩⟩
      else r)

/-- `createOrderedVolleyballRoster`: initialise rows 1–99, then place each
roster player at its `jerseyToRow` row. -/
def createOrderedVolleyballRoster (roster : List RosterPlayer)
    (playerStats : List VolleyballPlayerRaw) : List OrderedVolleyballPlayer :=
  roster.foldl (volleyballPlaceRoster playerStats) volleyballInitRows

/-! ## `src/lib/football/cat-stats.ts` — category selection

Only the category decision of `getFootballCatStats` is embedded: the
returned `stats` payload is display formatting (percentages via
floating-point `toFixed`) that no claim touches, while the chosen
`category` is decided purely by the integer comparisons below. -/

/-- The football display category. -/
inductive FootballCategory where
  | Passing
  | Rushing
  | Receiving
  | Defense
  | Kicking
  | Punting
  | General
deriving DecidableEq, Repr

/-- The category decision of `getFootballCatStats`, in source order. A
missing group contributes 0 to every comparison (`player.passing &&
player.passing.att > 0` is exactly `passAtt > 0` with `passAtt` read as 0
when the group is absent, and likewise down the chain). -/
def getFootballCatStatsCategory (player : FootballPlayerRaw) : FootballCategory :=
  let passAtt : Nat := (player.passing.map (fun s => s.att)).getD 0
  let rushAtt : Nat := (player.rushing.map (fun s => s.att)).getD 0
  let recNo : Nat := (player.receiving.map (fun s => s.no)).getD 0
  let defTot : Nat := (player.defense.map (fun s => s.tot)).getD 0
  let puntNo : Nat := (player.punting.map (fun s => s.no)).getD 0
  let fga : Nat := (player.kicking.map (fun s => s.fga)).getD 0
  if passAtt > 0 ∧ (passAtt > 10 ∨ passAtt > rushAtt) then FootballCategory.Passing
  else if rushAtt > 0 ∧ rushAtt ≥ recNo then FootballCategory.Rushing
  else if recNo > 0 then FootballCategory.Receiving
  else if defTot > 0 then FootballCategory.Defense
  else if puntNo > 0 then FootballCategory.Punting
  else if fga > 0 then FootballCategory.Kicking
  else FootballCategory.General

/-- The classification rule of the claim, written from the words of the spec
("Passing if pass attempts > 10 or pass attempts exceed rush attempts, else
Rushing if rush attempts ≥ receptions, else Receiving if receptions > 0,
else Defense if tackles > 0, else Punting, else Kicking"), reading the
unconditional trailing clauses charitably as guarded by punts > 0 /
attempts > 0. Used only to compare the claim against the code. -/
def specFootballClassify (passAtt rushAtt recNo tackles punts fga : Nat) :
    FootballCategory :=
  if passAtt > 10 ∨ passAtt > rushAtt then FootballCategory.Passing
  else if rushAtt ≥ recNo then FootballCategory.Rushing
  else if recNo > 0 then FootballCategory.Receiving
  else if tackles > 0 then FootballCategory.Defense
  else if punts > 0 then FootballCategory.Punting
  else if fga > 0 then FootballCategory.Kicking
  else FootballCategory.General

/-- The amended classification rule: the priority chain of the spec with the
activity guards the code actually applies (`att > 0`, `no > 0`, `tot > 0`,
`fga > 0`), falling through to `General`. -/
def amendedFootballClassify (passAtt rushAtt recNo tackles punts fga : Nat) :
    FootballCategory :=
  if passAtt > 0 ∧ (passAtt > 10 ∨ passAtt > rushAtt) then FootballCategory.Passing
  else if rushAtt > 0 ∧ rushAtt ≥ recNo then FootballCategory.Rushing
  else if recNo > 0 then FootballCategory.Receiving
  else if tackles > 0 then FootballCategory.Defense
  else if punts > 0 then FootballCategory.Punting
  else if fga > 0 then FootballCategory.Kicking
  else FootballCategory.General

/-! ## `src/lib/parsers/wmt-api.ts` — season-stat selection and the pure
per-player mapping of `parseWmtBaseballApi` (the network fetch is outside
the embedding; `parseWmtBaseballApiPure` is the computation applied to the
fetched player array). -/

/-- A raw statistic value: `number | string | null`. -/
inductive StatVal where
  | num (n : Int)
  | str (s : String)
  | null
deriving DecidableEq, Repr

/-- One season/career column of the WMT payload. -/
structure WmtColumn where
  period : Int
  statistic : List (String × StatVal)
deriving DecidableEq, Repr

/-- The `statistic.data.season` field: an object with `columns`, or the
empty array the API sends for players without stats. -/
inductive WmtSeason where
  | emptyArr
  | obj (gamesPlayed : Nat) (columns : List WmtColumn)
deriving DecidableEq, Repr

/-- A raw WMT API player. -/
structure WmtApiPlayer where
  id : Int
  team_id : Int
  first_name : String
  last_name : String
  jersey_no : String
  position_code : String
  class_short_descr : String
  season : WmtSeason
  career : Option WmtColumn := none
deriving DecidableEq, Repr

/-- `getSeasonStats`: `undefined` (`none`) when `season` is the empty
array, otherwise `season.columns[0].statistic` (also `undefined` when
`columns` is empty). -/
def getSeasonStats (player : WmtApiPlayer) : Option (List (String × StatVal)) :=
  match player.season with
  | WmtSeason.emptyArr => none
  | WmtSeason.obj _ columns => columns.head?.map (fun c => c.statistic)

/-- JS `Number(s) || 0` restricted to integer-formatted strings (every
numeric string stat the baseball mapper converts is integral); any other
string yields 0, as does NaN. Never evaluated by the claims below. -/
def jsNumberish (s : String) : Int :=
  match parseIntJS s with
  | some n => if (intRepr n).toList = jsTrim s.toList then n else 0
  | none => 0

/-- `num(stats, key)`: 0 for missing map, missing key or `null`; the number
itself; or `Number(v) || 0` of a string. -/
def numStat (stats : Option (List (String × StatVal))) (key : String) : Int :=
  match stats with
  | none => 0
  | some m =>
    match m.lookup key with
    | some (StatVal.num n) => n
    | some (StatVal.str s) => jsNumberish s
    | some StatVal.null => 0
    | none => 0

/-- `str(stats, key)`: the empty string for missing map, missing key or `null`,
otherwise `String(v)`. -/
def strStat (stats : Option (List (String × StatVal))) (key : String) : String :=
  match stats with
  | none => ""
  | some m =>
    match m.lookup key with
    | some (StatVal.num n) => intRepr n
    | some (StatVal.str s) => s
    | some StatVal.null => ""
    | none => ""

/-- `has(stats, key)`: the key is present and not `null`. -/
def hasStat (stats : Option (List (String × StatVal))) (key : String) : Bool :=
  match stats with
  | none => false
  | some m =>
    match m.lookup key with
    | some StatVal.null => false
    | some _ => true
    | none => false

/-- `PlayerStats` (baseball parser): every stat field a display string,
empty when unavailable. -/
structure PlayerStats where
  number : String
  name : String
  ab : String
  r : String
  h : String
  doubles : String
  triples : String
  hr : String
  rbi : String
  bb : String
  hbp : String
  so : String
  gdp : String
  sf : String
  sh : String
  sb : String
  cs : String
  w : String
  l : String
  g : String
  gs : String
  cg : String
  sho : String
  sv : String
  ip : String
  h_pitch : String
  r_pitch : String
  er : String
  bb_pitch : String
  so_pitch : String
  hr_pitch : String
  hbp_pitch : String
deriving DecidableEq, Repr

/-- The per-player mapping of `parseWmtBaseballApi`: batting fields are
rendered only when `sAtBats` is present, pitching fields only when
`sInningsPitched` is present; otherwise they are the empty string. -/
def mapWmtBaseballPlayer (player : WmtApiPlayer) : PlayerStats :=
  let stats := getSeasonStats player
  let isBatter := hasStat stats "sAtBats"
  let isPitcher := hasStat stats "sInningsPitched"
  { number := if player.jersey_no = "" then "" else player.jersey_no
    name := player.first_name ++ " " ++ player.last_name
    ab := if isBatter then intRepr (numStat stats "sAtBats") else ""
    r := if isBatter then intRepr (numStat stats "sRuns") else ""
    h := if isBatter then intRepr (numStat stats "sHits") else ""
    doubles := if isBatter then intRepr (numStat stats "sDoubles") else ""
    triples := if isBatter then intRepr (numStat stats "sTriples") else ""
    hr := if isBatter then intRepr (numStat stats "sHomeRuns") else ""
    rbi := if isBatter then intRepr (numStat stats "sRunsBattedIn") else ""
    bb := if isBatter then intRepr (numStat stats "sWalks") else ""
    hbp := if isBatter then intRepr (numStat stats "sHitByPitch") else ""
    so := if isBatter then intRepr (numStat stats "sStrikeoutsHitting") else ""
    gdp := if isBatter then intRepr (numStat stats "sGroundedIntoDoublePlay") else ""
    sf := if isBatter then intRepr (numStat stats "sSacrificeFlies") else ""
    sh := if isBatter then intRepr (numStat stats "sSacrificeHitsAllowed") else ""
    sb := if isBatter then intRepr (numStat stats "sStolenBases") else ""
    cs := if isBatter then intRepr (numStat stats "sCaughtStealingBy") else ""
    w := if isPitcher then intRepr (numStat stats "sIndWon") else ""
    l := if isPitcher then intRepr (numStat stats "sIndLost") else ""
    g := if isPitcher then intRepr (numStat stats "sPitchingAppearances") else ""
    gs := if isPitcher then intRepr (numStat stats "sPitcherGamesStarted") else ""
    cg := if isPitcher then intRepr (numStat stats "sCompleteGames") else ""
    sho := if isPitcher then intRepr (numStat stats "sShutouts") else ""
    sv := if isPitcher then intRepr (numStat stats "sSaves") else ""
    ip := if isPitcher then strStat stats "sInningsPitched" else ""
    h_pitch := if isPitcher then intRepr (numStat stats "sHitsAllowed") else ""
    r_pitch := if isPitcher then intRepr (numStat stats "sRunsAllowed") else ""
    er := if isPitcher then intRepr (numStat stats "sEarnedRuns") else ""
    bb_pitch := if isPitcher then intRepr (numStat stats "sBasesOnBallsAllowed") else ""
    so_pitch := if isPitcher then intRepr (numStat stats "sStrikeouts") else ""
    hr_pitch := if isPitcher then intRepr (numStat stats "sHomeRunsAllowed") else ""
    hbp_pitch := if isPitcher then intRepr (numStat stats "sHitBattersPitching") else "" }

/-- Jersey sort value of `sortByJersey`: the string 00 sorts as `-1`, otherwise
`parseInt(number) || 999`. -/
def jerseySortVal (x : PlayerStats) : Int :=
  if x.number = "00" then -1
  else
    match parseIntJS x.number with
    | some n => if n ≠ 0 then n else 999
    | none => 999

/-- Comparator order of `sortByJersey` as a boolean `≤`: named players
before nameless ones, then ascending jersey value. -/
def jerseyLe (a b : PlayerStats) : Bool :=
  let aHasName := !(jsTrim a.name.toList).isEmpty
  let bHasName := !(jsTrim b.name.toList).isEmpty
  if aHasName ≠ bHasName then aHasName else jerseySortVal a ≤ jerseySortVal b

/-- `sortByJersey` (JS stable sort under its comparator). -/
def sortByJersey (players : List PlayerStats) : List PlayerStats :=
  players.mergeSort jerseyLe

/-- The pure part of `parseWmtBaseballApi`: map every fetched player, then
sort by jersey. -/
def parseWmtBaseballApiPure (players : List WmtApiPlayer) : List PlayerStats :=
  sortByJersey (players.map mapWmtBaseballPlayer)

/-- A minimal stat record exposing the `{number; name}` structural bound of
`findMatchingStats`, used to state the matching claims. -/
structure StatsEntry where
  number : String
  name : String
deriving DecidableEq, Repr

/-- Invariant of the football slot-assignment state: assignment keys are
pairwise distinct, every key is an occupied slot in 1–99, and every stored
entry records its own key as its `slot`. -/
def FbInv (assignment : List (Nat × OrderedFootballPlayer))
    (occupied : List Nat) : Prop :=
  (assignment.map Prod.fst).Nodup ∧
  (∀ kv ∈ assignment, kv.1 ∈ occupied) ∧
  (∀ kv ∈ assignment, 1 ≤ kv.1 ∧ kv.1 ≤ 99) ∧
  (∀ kv ∈ assignment, kv.2.slot = (kv.1 : Int))

/-- The matched-roster payload carried by an assignment entry. -/
def payA (kv : Nat × OrderedFootballPlayer) :
    Player × Option FootballPlayerRaw :=
  (kv.2.player, kv.2.stats)

/-- The matched-roster payload carried by an inactive entry. -/
def payO (o : OrderedFootballPlayer) : Player × Option FootballPlayerRaw :=
  (o.player, o.stats)

/-- The state after steps 1–3 of `createOrderedFootballRoster` (before the
final sort-and-append); named so the invariants can be stated about it. -/
def fbFinalState (roster : List Player) (stats : List FootballPlayerRaw) :
    FbPlaceState :=
  let pws := playersWithStats roster stats
  let s2 := assignNaturalSlots pws
  s2.needsSlot.foldl placeNeedy ⟨s2.assignment, s2.occupied, []⟩

/-! ## Decimal rendering / parsing round trips -/

theorem digitsValBE_append_one (xs : List Nat) (d : Nat) :
    digitsValBE (xs ++ [d]) = 10 * digitsValBE xs + d := by
  simp [digitsValBE, List.foldl_append]

theorem digitsValBE_reverse (ds : List Nat) :
    digitsValBE ds.reverse = ofDigitsLE ds := by
  induction ds with
  | nil => rfl
  | cons d ds ih =>
    simp only [List.reverse_cons, digitsValBE_append_one, ofDigitsLE, ih]
    ring

theorem ofDigitsLE_natDigitsAux (fuel : Nat) :
    ∀ n, n ≤ fuel → ofDigitsLE (natDigitsAux fuel n) = n := by
  induction fuel with
  | zero => intro n hn; interval_cases n; rfl
  | succ f ih =>
    intro n hn
    by_cases h0 : n = 0
    · subst h0; simp [natDigitsAux, ofDigitsLE]
    · have hdiv : n / 10 ≤ f := by omega
      simp only [natDigitsAux, h0, if_false, ofDigitsLE, ih (n / 10) hdiv]
      omega

theorem ofDigitsLE_natDigitsLE (n : Nat) : ofDigitsLE (natDigitsLE n) = n :=
  ofDigitsLE_natDigitsAux n n le_rfl

theorem digitsValBE_natDigitsBE (n : Nat) : digitsValBE (natDigitsBE n) = n := by
  by_cases h0 : n = 0
  · subst h0; rfl
  · simp only [natDigitsBE, h0, if_false, natDigitsLE, digitsValBE_reverse,
      ofDigitsLE_natDigitsAux n n le_rfl]

theorem natDigitsAux_mem_lt_ten (fuel : Nat) :
    ∀ n d, d ∈ natDigitsAux fuel n → d < 10 := by
  induction fuel with
  | zero => intro n d h; simp [natDigitsAux] at h
  | succ f ih =>
    intro n d h
    by_cases h0 : n = 0
    · subst h0; simp [natDigitsAux] at h
    · simp only [natDigitsAux, h0, if_false, List.mem_cons] at h
      rcases h with h | h
      · omega
      · exact ih _ _ h

theorem natDigitsBE_mem_lt_ten (n d : Nat) (h : d ∈ natDigitsBE n) : d < 10 := by
  by_cases h0 : n = 0
  · subst h0; simp [natDigitsBE] at h; omega
  · simp only [natDigitsBE, h0, if_false, List.mem_reverse] at h
    exact natDigitsAux_mem_lt_ten n n d h

theorem natDigitsBE_ne_nil (n : Nat) : natDigitsBE n ≠ [] := by
  by_cases h0 : n = 0
  · subst h0; simp [natDigitsBE]
  · cases n with
    | zero => exact absurd rfl h0
    | succ f =>
      simp [natDigitsBE, natDigitsLE, natDigitsAux]

theorem digitCh_toNat : ∀ d, d < 10 → (digitCh d).toNat = 48 + d := by decide

theorem isDigitCh_digitCh : ∀ d, d < 10 → isDigitCh (digitCh d) = true := by decide

theorem digitVal_digitCh : ∀ d, d < 10 → digitVal (digitCh d) = d := by decide

theorem jsIsSpace_digitCh : ∀ d, d < 10 → jsIsSpace (digitCh d) = false := by decide

theorem digitCh_ne_special : ∀ d, d < 10 →
    digitCh d ≠ '+' ∧ digitCh d ≠ '-' ∧ digitCh d ≠ 'x' ∧ digitCh d ≠ 'X' := by
  decide

theorem parseDec_digits (n : Nat) :
    parseDec ((natDigitsBE n).map digitCh) = some n := by
  have hall : ∀ c ∈ (natDigitsBE n).map digitCh, isDigitCh c = true := by
    intro c hc
    rcases List.mem_map.mp hc with ⟨d, hd, rfl⟩
    exact isDigitCh_digitCh d (natDigitsBE_mem_lt_ten n d hd)
  have htake : ((natDigitsBE n).map digitCh).takeWhile isDigitCh =
      (natDigitsBE n).map digitCh := List.takeWhile_eq_self_iff.mpr hall
  have hne : (natDigitsBE n).map digitCh ≠ [] := by
    simpa using natDigitsBE_ne_nil n
  have hval : ((natDigitsBE n).map digitCh).map digitVal = natDigitsBE n := by
    rw [List.map_map]
    have : ∀ d ∈ natDigitsBE n, (digitVal ∘ digitCh) d = id d := by
      intro d hd
      exact digitVal_digitCh d (natDigitsBE_mem_lt_ten n d hd)
    rw [List.map_congr_left this, List.map_id]
  unfold parseDec
  simp only [htake, List.isEmpty_iff, hne, if_false, hval, digitsValBE_natDigitsBE]

theorem parseIntMag_digits (n : Nat) :
    parseIntMag ((natDigitsBE n).map digitCh) = some n := by
  rcases h : (natDigitsBE n).map digitCh with _ | ⟨c0, _ | ⟨c1, t⟩⟩
  · exact absurd h (by simpa using natDigitsBE_ne_nil n)
  · rw [show parseIntMag [c0] = parseDec [c0] from rfl, ← h, parseDec_digits]
  · have hc1 : c1 ∈ (natDigitsBE n).map digitCh := by rw [h]; simp
    rcases List.mem_map.mp hc1 with ⟨d, hd, rfl⟩
    have hlt := natDigitsBE_mem_lt_ten n d hd
    have hne := digitCh_ne_special d hlt
    rw [show parseIntMag (c0 :: digitCh d :: t) =
      if c0 = '0' ∧ (digitCh d = 'x' ∨ digitCh d = 'X') then parseHex t
      else parseDec (c0 :: digitCh d :: t) from rfl]
    rw [if_neg (by tauto), ← h, parseDec_digits]

theorem parseIntJS_natRepr (n : Nat) : parseIntJS (natRepr n) = some n := by
  have hlist : (natRepr n).toList = (natDigitsBE n).map digitCh := rfl
  rcases h : (natDigitsBE n).map digitCh with _ | ⟨c0, t⟩
  · exact absurd h (by simpa using natDigitsBE_ne_nil n)
  · have hc0 : c0 ∈ (natDigitsBE n).map digitCh := by rw [h]; simp
    rcases List.mem_map.mp hc0 with ⟨d, hd, rfl⟩
    have hlt := natDigitsBE_mem_lt_ten n d hd
    have hsp := jsIsSpace_digitCh d hlt
    have hne := digitCh_ne_special d hlt
    have hdrop : (natRepr n).toList.dropWhile jsIsSpace = digitCh d :: t := by
      rw [hlist, h, List.dropWhile_cons, hsp]
      simp
    unfold parseIntJS
    rw [hdrop]
    have hmag : parseIntMag (digitCh d :: t) = some n := by
      rw [← h, parseIntMag_digits]
    split
    · next t2 heq =>
      injection heq with h1 _
      exact absurd h1 hne.1
    · next t2 heq =>
      injection heq with h1 _
      exact absurd h1 hne.2.1
    · next _ _ _ =>
      simp [hmag]

/-! ## C1 — the jersey/slot contract of `jerseyToRow` -/

theorem parseIntJS_zero : parseIntJS "0" = some 0 := by decide

theorem parseIntJS_doublezero : parseIntJS "00" = some 0 := by decide

theorem jerseyToRow_parse_some (s : String) (h0 : s ≠ "0") (h00 : s ≠ "00")
    (n : Int) (hp : parseIntJS s = some n) :
    jerseyToRow s =
      if 1 ≤ n ∧ n < 90 then n else if 90 ≤ n ∧ n ≤ 98 then n else 0 := by
  unfold jerseyToRow
  rw [if_neg h0, if_neg h00, hp]

theorem jerseyToRow_parse_none (s : String) (h0 : s ≠ "0") (h00 : s ≠ "00")
    (hp : parseIntJS s = none) : jerseyToRow s = 0 := by
  unfold jerseyToRow
  rw [if_neg h0, if_neg h00, hp]

/-- C1, counterexample: the final clause of the claim — every input other than
`"0"`, `"00"` and the numeric strings `"1"`…`"98"` yields the invalid
marker 0 — is false: `jerseyToRow "7a" = 7`, because JS `parseInt` reads
the numeric prefix of a non-numeric string. -/
theorem jerseyToRow_claim_counterexample :
    ¬ (∀ s : String, s ≠ "0" → s ≠ "00" →
        (¬ ∃ n : Nat, 1 ≤ n ∧ n ≤ 98 ∧ s = natRepr n) → jerseyToRow s = 0) := by
  intro hclaim
  have hno : ¬ ∃ n : Nat, 1 ≤ n ∧ n ≤ 98 ∧ "7a" = natRepr n := by
    rintro ⟨n, -, -, heq⟩
    have hp : parseIntJS "7a" = some n := by rw [heq, parseIntJS_natRepr]
    have h7 : parseIntJS "7a" = some 7 := by decide
    rw [h7] at hp
    have hn7 : n = 7 := by
      injection hp with hp2
      omega
    subst hn7
    exact absurd heq (by decide)
  have h0 := hclaim "7a" (by decide) (by decide) hno
  have h7 : jerseyToRow "7a" = 7 := by decide
  rw [h7] at h0
  exact absurd h0 (by decide)

/-- C1, amended: `"0"` ↦ 90 and `"00"` ↦ 99; every canonical numeric
string `"1"`…`"98"` maps to its own number; every input `parseInt` cannot
read at all maps to the invalid marker 0; and any other input follows its
`parseInt` value — the slot itself when that value lies in 1–98, the
invalid marker otherwise (so a string with a numeric prefix such as
`"7a"` is treated as its prefix value, not as invalid). -/
theorem jerseyToRow_contract :
    jerseyToRow "0" = 90 ∧ jerseyToRow "00" = 99 ∧
    (∀ n : Nat, 1 ≤ n → n ≤ 98 → jerseyToRow (natRepr n) = n) ∧
    (∀ s : String, parseIntJS s = none → s ≠ "0" → s ≠ "00" →
      jerseyToRow s = 0) ∧
    (∀ (s : String) (n : Int), parseIntJS s = some n → s ≠ "0" → s ≠ "00" →
      (1 ≤ n ∧ n ≤ 98 → jerseyToRow s = n) ∧
      (¬ (1 ≤ n ∧ n ≤ 98) → jerseyToRow s = 0)) := by
  refine ⟨by decide, by decide, ?_, ?_, ?_⟩
  · intro n h1 h98
    have hp := parseIntJS_natRepr n
    have h0 : natRepr n ≠ "0" := by
      intro heq
      rw [heq, parseIntJS_zero] at hp
      injection hp with hp2
      omega
    have h00 : natRepr n ≠ "00" := by
      intro heq
      rw [heq, parseIntJS_doublezero] at hp
      injection hp with hp2
      omega
    rw [jerseyToRow_parse_some _ h0 h00 _ hp]
    have h1i : (1 : Int) ≤ (n : Int) := by exact_mod_cast h1
    have h98i : (n : Int) ≤ 98 := by exact_mod_cast h98
    by_cases hlt : (n : Int) < 90
    · rw [if_pos ⟨h1i, hlt⟩]
    · rw [if_neg (by tauto), if_pos ⟨by omega, h98i⟩]
  · intro s hp h0 h00
    exact jerseyToRow_parse_none s h0 h00 hp
  · intro s n hp h0 h00
    constructor
    · intro hrange
      rw [jerseyToRow_parse_some s h0 h00 n hp]
      by_cases hlt : n < 90
      · rw [if_pos ⟨hrange.1, hlt⟩]
      · rw [if_neg (by tauto), if_pos ⟨by omega, hrange.2⟩]
    · intro hrange
      rw [jerseyToRow_parse_some s h0 h00 n hp]
      rw [if_neg (by omega), if_neg (by omega)]

/-- C1 witness: the amended contract applied at `"7"` (via `natRepr 7`),
`"abc"` (NaN) and `"150"` (out of range). -/
theorem jerseyToRow_contract_witness :
    jerseyToRow (natRepr 7) = 7 ∧ jerseyToRow "abc" = 0 ∧
    jerseyToRow "150" = 0 :=
  ⟨jerseyToRow_contract.2.2.1 7 (by decide) (by decide),
   jerseyToRow_contract.2.2.2.1 "abc" (by decide) (by decide) (by decide),
   (jerseyToRow_contract.2.2.2.2 "150" 150 (by decide) (by decide)
     (by decide)).2 (by decide)⟩

/-! ## C9 — jersey normalisation -/

/-- C9: `normalizeJersey` keeps `"0"` and `"00"` unchanged (and distinct),
and sends every other jersey string whose `parseInt` value is a positive
integer to the canonical decimal rendering of that value (leading zeros
stripped) — so `"07"` and `"7"` normalise identically, while `"0"` and
`"00"` never compare equal. -/
theorem normalizeJersey_canonical :
    normalizeJersey "0" = "0" ∧ normalizeJersey "00" = "00" ∧
    normalizeJersey "0" ≠ normalizeJersey "00" ∧
    (∀ (s : String) (n : Int), parseIntJS s = some n → 0 < n →
      normalizeJersey s = natRepr n.toNat) ∧
    normalizeJersey "07" = normalizeJersey "7" := by
  refine ⟨by decide, by decide, by decide, ?_, by decide⟩
  intro s n hp hpos
  have h0 : s ≠ "0" := by
    rintro rfl
    rw [parseIntJS_zero] at hp
    injection hp with hp2
    omega
  have h00 : s ≠ "00" := by
    rintro rfl
    rw [parseIntJS_doublezero] at hp
    injection hp with hp2
    omega
  unfold normalizeJersey
  rw [if_neg (by tauto), hp]
  show (if n ≠ 0 then intRepr n else s) = natRepr n.toNat
  rw [if_pos (by omega)]
  unfold intRepr
  rw [if_neg (by omega)]

/-- C9 witness: the canonical-form clause applied at `"07"`, whose
`parseInt` value is 7. -/
theorem normalizeJersey_canonical_witness :
    normalizeJersey "07" = natRepr 7 :=
  normalizeJersey_canonical.2.2.2.1 "07" 7 (by decide) (by decide)

/-! ## C10 — loose name matching with an empty normalised roster name -/

theorem jsIncludes_empty_sub (s : String) : jsIncludes s "" = true := by
  unfold jsIncludes
  rw [List.any_eq_true]
  refine ⟨[], ?_, rfl⟩
  rw [List.mem_tails]
  exact List.nil_suffix

/-- C10: when either roster name field normalises to the empty string,
`looseNameMatch` accepts every stats name (the containment check
`statsName.includes("")` is vacuously true), so `primaryMatch` succeeds on
jersey equality alone. -/
theorem looseNameMatch_empty_name :
    ∀ rosterFirst rosterLast : String,
      normalizeName rosterFirst = "" ∨ normalizeName rosterLast = "" →
      (∀ statsName, looseNameMatch rosterFirst rosterLast statsName = true) ∧
      (∀ rosterJersey statsJersey statsName,
        normalizeJersey rosterJersey = normalizeJersey statsJersey →
        primaryMatch rosterJersey rosterFirst rosterLast statsJersey
          statsName = true) := by
  intro rosterFirst rosterLast hemp
  have hloose : ∀ statsName,
      looseNameMatch rosterFirst rosterLast statsName = true := by
    intro statsName
    unfold looseNameMatch
    rcases hemp with h | h
    · rw [h]
      simp [jsIncludes_empty_sub]
    · rw [h]
      simp [jsIncludes_empty_sub]
  refine ⟨hloose, ?_⟩
  intro rosterJersey statsJersey statsName hj
  unfold primaryMatch
  rw [hloose statsName, hj]
  simp

/-- C10 witness: a roster first name of `"!!"` (normalises to `""`)
matches any stats name, and primary matching then succeeds on the jersey
alone. -/
theorem looseNameMatch_empty_name_witness :
    looseNameMatch "!!" "Smith" "Jones, Walter" = true ∧
    primaryMatch "07" "!!" "Smith" "7" "Jones, Walter" = true :=
  ⟨(looseNameMatch_empty_name "!!" "Smith" (Or.inl (by decide))).1 "Jones, Walter",
   (looseNameMatch_empty_name "!!" "Smith" (Or.inl (by decide))).2 "07" "7"
     "Jones, Walter" (by decide)⟩

/-! ## C4 — phase-2 (fallback) matching -/

/-- C4: a stat record whose normalised jersey differs from the roster
player but whose normalised first and last names both agree exactly
passes phase 2 and fails phase 1; hence whenever no phase-1 match exists
in the list and such a record is present, `findMatchingStats` returns a
(phase-2) record: one with exactly matching names and a different jersey. -/
theorem fallback_phase2 :
    ∀ (rosterPlayer : RosterId) (s : StatsEntry) (allStats : List StatsEntry),
      normalizeJersey s.number ≠ normalizeJersey rosterPlayer.number →
      normalizeName (extractFirstName s.name) =
        normalizeName rosterPlayer.firstName →
      normalizeName (extractLastName s.name) =
        normalizeName rosterPlayer.lastName →
      fallbackMatch rosterPlayer.firstName rosterPlayer.lastName s.name = true ∧
      primaryMatch rosterPlayer.number rosterPlayer.firstName
        rosterPlayer.lastName s.number s.name = false ∧
      (s ∈ allStats →
        (∀ t ∈ allStats,
          primaryMatch rosterPlayer.number rosterPlayer.firstName
            rosterPlayer.lastName t.number t.name = false) →
        ∃ t, findMatchingStats (fun e => e.number) (fun e => e.name)
            rosterPlayer allStats = some t ∧
          fallbackMatch rosterPlayer.firstName rosterPlayer.lastName
            t.name = true ∧
          normalizeJersey t.number ≠ normalizeJersey rosterPlayer.number) := by
  intro rosterPlayer s allStats hj hfn hln
  have hfall : fallbackMatch rosterPlayer.firstName rosterPlayer.lastName
      s.name = true := by
    unfold fallbackMatch exactNameMatch
    rw [hfn, hln]
    simp
  have hprim : primaryMatch rosterPlayer.number rosterPlayer.firstName
      rosterPlayer.lastName s.number s.name = false := by
    unfold primaryMatch
    have : (normalizeJersey rosterPlayer.number ==
        normalizeJersey s.number) = false := by
      simp [Ne.symm hj]
    rw [this]
    simp
  refine ⟨hfall, hprim, ?_⟩
  intro hmem hnoprim
  have hempty : allStats.isEmpty = false := by
    cases allStats with
    | nil => cases hmem
    | cons a l => rfl
  have hfind1 : allStats.find? (fun stats =>
      primaryMatch rosterPlayer.number rosterPlayer.firstName
        rosterPlayer.lastName stats.number stats.name) = none := by
    rw [List.find?_eq_none]
    intro x hx
    rw [hnoprim x hx]
    simp
  have hsp : (fun stats : StatsEntry =>
      normalizeJersey stats.number != normalizeJersey rosterPlayer.number &&
        fallbackMatch rosterPlayer.firstName rosterPlayer.lastName
          stats.name) s = true := by
    simp only [Bool.and_eq_true, bne_iff_ne]
    exact ⟨hj, hfall⟩
  have hex : (allStats.find? (fun stats =>
      normalizeJersey stats.number != normalizeJersey rosterPlayer.number &&
        fallbackMatch rosterPlayer.firstName rosterPlayer.lastName
          stats.name)).isSome := by
    rw [List.find?_isSome]
    exact ⟨s, hmem, hsp⟩
  rcases Option.isSome_iff_exists.mp hex with ⟨t, ht⟩
  refine ⟨t, ?_, ?_, ?_⟩
  · simp only [findMatchingStats, hempty, Bool.false_eq_true, if_false, hfind1]
    exact ht
  · have := List.find?_some ht
    simp only [Bool.and_eq_true] at this
    exact this.2
  · have := List.find?_some ht
    simp only [Bool.and_eq_true, bne_iff_ne] at this
    exact this.1

/-- C4 witness: roster player 7 John Smith against the single record
(12, "Smith, John"). -/
theorem fallback_phase2_witness :
    ∃ t, findMatchingStats (fun e : StatsEntry => e.number)
        (fun e : StatsEntry => e.name) ⟨"John", "Smith", "7"⟩
        [⟨"12", "Smith, John"⟩] = some t ∧
      fallbackMatch "John" "Smith" t.name = true ∧
      normalizeJersey t.number ≠ normalizeJersey "7" :=
  (fallback_phase2 ⟨"John", "Smith", "7"⟩ ⟨"12", "Smith, John"⟩
      [⟨"12", "Smith, John"⟩] (by decide) (by decide) (by decide)).2.2
    (by simp) (by decide)

/-! ## C7 — football category classification -/

/-- C7, counterexample: a player with no stat groups at all. The
priority chain has no activity guard on Rushing, so it classifies the
all-empty player as Rushing (0 rush attempts ≥ 0 receptions); the code
classifies them as General. -/
theorem football_classify_counterexample :
    getFootballCatStatsCategory
      ⟨"", "", none, none, none, none, none, none, none⟩ =
      FootballCategory.General ∧
    specFootballClassify 0 0 0 0 0 0 = FootballCategory.Rushing ∧
    FootballCategory.General ≠ FootballCategory.Rushing := by
  refine ⟨by decide, by decide, by decide⟩

/-- C7, amended: the code classifies by the priority order of the spec with the
activity guards it actually applies — Passing needs pass attempts > 0 (and
> 10 or > rush attempts), Rushing needs rush attempts > 0 (and ≥
receptions), Receiving needs receptions > 0, Defense tackles > 0, Punting
punts > 0, Kicking field-goal attempts > 0, and otherwise the category is
General. The two examples of the claim hold: passing att 15 / rushing att 3 ⇒
Passing, and rushing att 5 / receiving no 2 ⇒ Rushing. -/
theorem football_classify_amended :
    (∀ player : FootballPlayerRaw,
      getFootballCatStatsCategory player =
        amendedFootballClassify
          ((player.passing.map (fun s => s.att)).getD 0)
          ((player.rushing.map (fun s => s.att)).getD 0)
          ((player.receiving.map (fun s => s.no)).getD 0)
          ((player.defense.map (fun s => s.tot)).getD 0)
          ((player.punting.map (fun s => s.no)).getD 0)
          ((player.kicking.map (fun s => s.fga)).getD 0)) ∧
    getFootballCatStatsCategory
      ⟨"10", "QB Sample", some ⟨10, 15, 0, 0, 0, 0, 0⟩,
        some ⟨3, 0, 0, 0, 0, 0, 0, 0⟩, none, none, none, none, none⟩ =
      FootballCategory.Passing ∧
    getFootballCatStatsCategory
      ⟨"22", "RB Sample", none, some ⟨5, 0, 0, 0, 0, 0, 0, 0⟩,
        some ⟨2, 0, 0, 0, 0, 0⟩, none, none, none, none⟩ =
      FootballCategory.Rushing := by
  refine ⟨fun player => rfl, by decide, by decide⟩

/-! ## C8 — empty season array means no stats, not zero stats -/

/-- C8: a WMT player whose `statistic.data.season` is the empty array is
mapped with every batting and pitching field equal to the absent value
`""` (never `"0"`), and their record still appears in the parser output. -/
theorem wmt_empty_season_no_stats :
    ∀ p : WmtApiPlayer, p.season = WmtSeason.emptyArr →
      ((mapWmtBaseballPlayer p).ab = "" ∧ (mapWmtBaseballPlayer p).r = "" ∧
       (mapWmtBaseballPlayer p).h = "" ∧ (mapWmtBaseballPlayer p).doubles = "" ∧
       (mapWmtBaseballPlayer p).triples = "" ∧ (mapWmtBaseballPlayer p).hr = "" ∧
       (mapWmtBaseballPlayer p).rbi = "" ∧ (mapWmtBaseballPlayer p).bb = "" ∧
       (mapWmtBaseballPlayer p).hbp = "" ∧ (mapWmtBaseballPlayer p).so = "" ∧
       (mapWmtBaseballPlayer p).gdp = "" ∧ (mapWmtBaseballPlayer p).sf = "" ∧
       (mapWmtBaseballPlayer p).sh = "" ∧ (mapWmtBaseballPlayer p).sb = "" ∧
       (mapWmtBaseballPlayer p).cs = "" ∧ (mapWmtBaseballPlayer p).w = "" ∧
       (mapWmtBaseballPlayer p).l = "" ∧ (mapWmtBaseballPlayer p).g = "" ∧
       (mapWmtBaseballPlayer p).gs = "" ∧ (mapWmtBaseballPlayer p).cg = "" ∧
       (mapWmtBaseballPlayer p).sho = "" ∧ (mapWmtBaseballPlayer p).sv = "" ∧
       (mapWmtBaseballPlayer p).ip = "" ∧ (mapWmtBaseballPlayer p).h_pitch = "" ∧
       (mapWmtBaseballPlayer p).r_pitch = "" ∧ (mapWmtBaseballPlayer p).er = "" ∧
       (mapWmtBaseballPlayer p).bb_pitch = "" ∧
       (mapWmtBaseballPlayer p).so_pitch = "" ∧
       (mapWmtBaseballPlayer p).hr_pitch = "" ∧
       (mapWmtBaseballPlayer p).hbp_pitch = "") ∧
      ∀ players, p ∈ players →
        mapWmtBaseballPlayer p ∈ parseWmtBaseballApiPure players := by
  intro p hseason
  have hstats : getSeasonStats p = none := by
    unfold getSeasonStats
    rw [hseason]
  constructor
  · simp [mapWmtBaseballPlayer, hstats, hasStat]
  · intro players hmem
    unfold parseWmtBaseballApiPure sortByJersey
    rw [List.mem_mergeSort]
    exact List.mem_map_of_mem _ hmem

/-- C8 witness: one concrete player with the empty season array. -/
theorem wmt_empty_season_no_stats_witness :
    (mapWmtBaseballPlayer
      ⟨1, 2, "Ann", "Lee", "5", "P", "FR", WmtSeason.emptyArr, none⟩).ab = "" ∧
    mapWmtBaseballPlayer
      ⟨1, 2, "Ann", "Lee", "5", "P", "FR", WmtSeason.emptyArr, none⟩ ∈
      parseWmtBaseballApiPure
        [⟨1, 2, "Ann", "Lee", "5", "P", "FR", WmtSeason.emptyArr, none⟩] :=
  ⟨(wmt_empty_season_no_stats _ rfl).1.1,
   (wmt_empty_season_no_stats _ rfl).2 _ (by simp)⟩

/-! ## C2/C3 — invariants of the football slot assigner -/

theorem filter_or_perm {α : Type} (p q : α → Bool) :
    ∀ l : List α, (∀ a ∈ l, ¬(p a = true ∧ q a = true)) →
      (l.filter p ++ l.filter q).Perm (l.filter (fun a => p a || q a)) := by
  intro l
  induction l with
  | nil => intro _; simp
  | cons a t ih =>
    intro hdisj
    have ht : ∀ x ∈ t, ¬(p x = true ∧ q x = true) := fun x hx =>
      hdisj x (List.mem_cons_of_mem a hx)
    cases hpa : p a with
    | true =>
      have hqa : q a = false := by
        cases hqa2 : q a
        · rfl
        · exact absurd ⟨hpa, hqa2⟩ (hdisj a (List.mem_cons_self a t))
      rw [List.filter_cons_of_pos hpa, List.filter_cons_of_neg (by simp [hqa]),
        List.filter_cons_of_pos (by simp [hpa]), List.cons_append]
      exact (ih ht).cons a
    | false =>
      cases hqa : q a with
      | true =>
        rw [List.filter_cons_of_neg (by simp [hpa]),
          List.filter_cons_of_pos hqa,
          List.filter_cons_of_pos (by simp [hpa, hqa])]
        exact List.perm_middle.trans ((ih ht).cons a)
      | false =>
        rw [List.filter_cons_of_neg (by simp [hpa]),
          List.filter_cons_of_neg (by simp [hqa]),
          List.filter_cons_of_neg (by simp [hpa, hqa])]
        exact ih ht

theorem flatMap_groupOf_perm :
    ∀ (keys : List Int), keys.Nodup →
      ∀ pws : List (Player × Option FootballPlayerRaw),
        (keys.flatMap (groupOf pws)).Perm
          (pws.filter (fun p => keys.contains (jerseyKey p.1))) := by
  intro keys
  induction keys with
  | nil =>
    intro _ pws
    simp
  | cons k rest ih =>
    intro hnd pws
    have hk : k ∉ rest := (List.nodup_cons.mp hnd).1
    have hrest : rest.Nodup := (List.nodup_cons.mp hnd).2
    rw [List.flatMap_cons]
    have h1 : (rest.flatMap (groupOf pws)).Perm
        (pws.filter (fun p => rest.contains (jerseyKey p.1))) := ih hrest pws
    refine (List.Perm.append_left (groupOf pws k) h1).trans ?_
    have h3 := filter_or_perm (fun p : Player × Option FootballPlayerRaw =>
        jerseyKey p.1 == k)
      (fun p => rest.contains (jerseyKey p.1)) pws ?_
    · refine h3.trans ?_
      have heq : (fun p : Player × Option FootballPlayerRaw =>
          (jerseyKey p.1 == k) || rest.contains (jerseyKey p.1)) =
          fun p => (k :: rest).contains (jerseyKey p.1) := by
        funext p
        rw [List.contains_cons]
      rw [heq]
    · intro a _ hcontra
      have h4 : jerseyKey a.1 = k := beq_iff_eq.mp hcontra.1
      have h5 : k ∈ rest := by
        rw [← h4]
        exact List.elem_iff.mp hcontra.2
      exact hk h5

theorem mapSet_fresh (m : List (Nat × OrderedFootballPlayer)) (k : Nat)
    (v : OrderedFootballPlayer) (h : ∀ kv ∈ m, kv.1 ≠ k) :
    mapSet m k v = m ++ [(k, v)] := by
  unfold mapSet
  rw [if_neg]
  intro hany
  rcases List.any_eq_true.mp hany with ⟨kv, hkv, hbeq⟩
  exact h kv hkv (beq_iff_eq.mp hbeq)

theorem matchAll_fold_fst (stats : List FootballPlayerRaw) :
    ∀ (roster : List Player)
      (st : List String × List (Player × Option FootballPlayerRaw)),
      ((roster.foldl (matchAllStep stats) st).2).map Prod.fst =
        st.2.map Prod.fst ++ roster := by
  intro roster
  induction roster with
  | nil => intro st; simp
  | cons p t ih =>
    intro st
    rw [List.foldl_cons]
    cases h : matchFootballPlayerStats p stats st.1 with
    | some m =>
      rw [show matchAllStep stats st p =
        (st.1 ++ [statKey m], st.2 ++ [(p, some m)]) by
          unfold matchAllStep; rw [h]]
      rw [ih]
      simp
    | none =>
      rw [show matchAllStep stats st p = (st.1, st.2 ++ [(p, none)]) by
        unfold matchAllStep; rw [h]]
      rw [ih]
      simp

theorem playersWithStats_map_fst (roster : List Player)
    (stats : List FootballPlayerRaw) :
    (playersWithStats roster stats).map Prod.fst = roster := by
  unfold playersWithStats
  rw [matchAll_fold_fst]
  rfl

theorem sortedJerseyKeys_nodup (pws : List (Player × Option FootballPlayerRaw)) :
    (sortedJerseyKeys pws).Nodup :=
  (List.mergeSort_perm _ _).nodup_iff.mpr (List.nodup_dedup _)

theorem mem_sortedJerseyKeys (pws : List (Player × Option FootballPlayerRaw))
    (p : Player × Option FootballPlayerRaw) (hp : p ∈ pws) :
    jerseyKey p.1 ∈ sortedJerseyKeys pws := by
  unfold sortedJerseyKeys
  rw [List.mem_mergeSort, List.mem_dedup]
  exact List.mem_map_of_mem _ hp

theorem payA_mkOrdered (p : Player × Option FootballPlayerRaw) (s : Int)
    (k : Nat) : payA (k, mkOrdered p s) = p := rfl

theorem processJerseyGroup_nil (pws : List (Player × Option FootballPlayerRaw))
    (st : FbAssignState) (k : Int) (h : groupOf pws k = []) :
    processJerseyGroup pws st k = st := by
  unfold processJerseyGroup
  rw [h]

theorem processJerseyGroup_single (pws : List (Player × Option FootballPlayerRaw))
    (st : FbAssignState) (k : Int) (p : Player × Option FootballPlayerRaw)
    (h : groupOf pws k = [p]) :
    processJerseyGroup pws st k =
      if 1 ≤ k ∧ k ≤ 99 then
        { st with
          occupied := st.occupied ++ [k.toNat]
          assignment := mapSet st.assignment k.toNat (mkOrdered p k) }
      else { st with needsSlot := st.needsSlot ++ [p] } := by
  unfold processJerseyGroup
  rw [h]

theorem processJerseyGroup_dup (pws : List (Player × Option FootballPlayerRaw))
    (st : FbAssignState) (k : Int) (p1 p2 : Player × Option FootballPlayerRaw)
    (g2 : List (Player × Option FootballPlayerRaw))
    (h : groupOf pws k = p1 :: p2 :: g2)
    (f : Player × Option FootballPlayerRaw)
    (rest : List (Player × Option FootballPlayerRaw))
    (hs : statsFirstSort (groupOf pws k) = f :: rest) :
    processJerseyGroup pws st k =
      if 1 ≤ k ∧ k ≤ 99 then
        { st with
          occupied := st.occupied ++ [k.toNat]
          assignment := mapSet st.assignment k.toNat (mkOrdered f k)
          needsSlot := st.needsSlot ++ rest }
      else { st with needsSlot := st.needsSlot ++ (f :: rest) } := by
  unfold processJerseyGroup
  rw [h]
  rw [h] at hs
  rw [hs]

theorem assignStep_inv (st : FbAssignState) (k : Int)
    (p : Player × Option FootballPlayerRaw) (hvalid : 1 ≤ k ∧ k ≤ 99)
    (hinv : FbInv st.assignment st.occupied)
    (hfresh : ∀ kv ∈ st.assignment, ((kv.1 : Int)) ≠ k) :
    FbInv (mapSet st.assignment k.toNat (mkOrdered p k))
      (st.occupied ++ [k.toNat]) ∧
    (∀ kv ∈ mapSet st.assignment k.toNat (mkOrdered p k),
      (kv.1 : Int) = k ∨ kv ∈ st.assignment) ∧
    (mapSet st.assignment k.toNat (mkOrdered p k)).map payA =
      st.assignment.map payA ++ [p] := by
  obtain ⟨hnd, hocc, hbnd, hslot⟩ := hinv
  have hknat : ((k.toNat : Int)) = k := Int.toNat_of_nonneg (by omega)
  have hfr : ∀ kv ∈ st.assignment, kv.1 ≠ k.toNat := by
    intro kv hkv heq
    exact hfresh kv hkv (by rw [heq, hknat])
  rw [mapSet_fresh _ _ _ hfr]
  refine ⟨⟨?_, ?_, ?_, ?_⟩, ?_, ?_⟩
  · rw [List.map_append]
    simp only [List.nodup_append, List.map_cons, List.map_nil]
    refine ⟨hnd, by simp, ?_⟩
    intro a ha
    simp only [List.mem_singleton]
    rcases List.mem_map.mp ha with ⟨kv, hkv, rfl⟩
    intro h
    exact hfr kv hkv h
  · intro kv hkv
    rcases List.mem_append.mp hkv with h | h
    · exact List.mem_append_left _ (hocc kv h)
    · simp only [List.mem_singleton] at h
      subst h
      exact List.mem_append_right _ (by simp)
  · intro kv hkv
    rcases List.mem_append.mp hkv with h | h
    · exact hbnd kv h
    · simp only [List.mem_singleton] at h
      subst h
      constructor <;> omega
  · intro kv hkv
    rcases List.mem_append.mp hkv with h | h
    · exact hslot kv h
    · simp only [List.mem_singleton] at h
      subst h
      show (k : Int) = ((k.toNat : Nat) : Int)
      rw [hknat]
  · intro kv hkv
    rcases List.mem_append.mp hkv with h | h
    · exact Or.inr h
    · simp only [List.mem_singleton] at h
      subst h
      exact Or.inl hknat
  · rw [List.map_append]
    rfl

theorem append_singleton_perm {α : Type} (A N : List α) (x : α) :
    ((A ++ [x]) ++ N).Perm ((A ++ N) ++ [x]) := by
  rw [List.append_assoc, List.append_assoc]
  exact List.Perm.append_left A List.perm_append_comm

theorem append_cons_perm {α : Type} (A N R : List α) (x : α) :
    ((A ++ [x]) ++ (N ++ R)).Perm ((A ++ N) ++ (x :: R)) := by
  rw [List.append_assoc, List.append_assoc]
  refine List.Perm.append_left A ?_
  show (x :: (N ++ R)).Perm (N ++ (x :: R))
  exact List.perm_middle.symm

theorem processJerseyGroup_inv (pws : List (Player × Option FootballPlayerRaw))
    (st : FbAssignState) (k : Int)
    (hinv : FbInv st.assignment st.occupied)
    (hfresh : ∀ kv ∈ st.assignment, ((kv.1 : Int)) ≠ k) :
    FbInv (processJerseyGroup pws st k).assignment
      (processJerseyGroup pws st k).occupied ∧
    (∀ kv ∈ (processJerseyGroup pws st k).assignment,
      (kv.1 : Int) = k ∨ kv ∈ st.assignment) ∧
    ((processJerseyGroup pws st k).assignment.map payA ++
      (processJerseyGroup pws st k).needsSlot).Perm
      ((st.assignment.map payA ++ st.needsSlot) ++ groupOf pws k) := by
  cases hg : groupOf pws k with
  | nil =>
    rw [processJerseyGroup_nil pws st k hg]
    exact ⟨hinv, fun kv hkv => Or.inr hkv, by simp⟩
  | cons p1 grest =>
    cases grest with
    | nil =>
      rw [processJerseyGroup_single pws st k p1 hg]
      by_cases hvalid : 1 ≤ k ∧ k ≤ 99
      · rw [if_pos hvalid]
        obtain ⟨hinv2, hprov, hmap⟩ := assignStep_inv st k p1 hvalid hinv hfresh
        refine ⟨hinv2, hprov, ?_⟩
        show ((mapSet st.assignment k.toNat (mkOrdered p1 k)).map payA ++
          st.needsSlot).Perm _
        rw [hmap]
        exact append_singleton_perm _ _ _
      · rw [if_neg hvalid]
        refine ⟨hinv, fun kv hkv => Or.inr hkv, ?_⟩
        rw [← List.append_assoc]
    | cons p2 grest2 =>
      have hgg : groupOf pws k = p1 :: p2 :: grest2 := hg
      cases hsort : statsFirstSort (groupOf pws k) with
      | nil =>
        exfalso
        have hperm : (statsFirstSort (groupOf pws k)).Perm (groupOf pws k) := by
          unfold statsFirstSort
          exact List.filter_append_perm _ _
        rw [hsort, hgg] at hperm
        have := hperm.length_eq
        simp at this
      | cons f rest2 =>
        have hsortperm : (f :: rest2).Perm (p1 :: p2 :: grest2) := by
          rw [← hsort, ← hgg]
          unfold statsFirstSort
          exact List.filter_append_perm _ _
        rw [processJerseyGroup_dup pws st k p1 p2 grest2 hgg f rest2 hsort]
        by_cases hvalid : 1 ≤ k ∧ k ≤ 99
        · rw [if_pos hvalid]
          obtain ⟨hinv2, hprov, hmap⟩ := assignStep_inv st k f hvalid hinv hfresh
          refine ⟨hinv2, hprov, ?_⟩
          show ((mapSet st.assignment k.toNat (mkOrdered f k)).map payA ++
            (st.needsSlot ++ rest2)).Perm _
          rw [hmap]
          exact (append_cons_perm _ _ _ _).trans
            (List.Perm.append_left _ hsortperm)
        · rw [if_neg hvalid]
          refine ⟨hinv, fun kv hkv => Or.inr hkv, ?_⟩
          show (st.assignment.map payA ++
            (st.needsSlot ++ (f :: rest2))).Perm _
          rw [← List.append_assoc]
          exact List.Perm.append_left _ hsortperm

theorem assignNatural_fold (pws : List (Player × Option FootballPlayerRaw)) :
    ∀ (keys : List Int) (st : FbAssignState),
      keys.Nodup →
      FbInv st.assignment st.occupied →
      (∀ kv ∈ st.assignment, ((kv.1 : Int)) ∉ keys) →
      FbInv (keys.foldl (processJerseyGroup pws) st).assignment
        (keys.foldl (processJerseyGroup pws) st).occupied ∧
      ((keys.foldl (processJerseyGroup pws) st).assignment.map payA ++
        (keys.foldl (processJerseyGroup pws) st).needsSlot).Perm
        ((st.assignment.map payA ++ st.needsSlot) ++
          keys.flatMap (groupOf pws)) := by
  intro keys
  induction keys with
  | nil =>
    intro st _ hinv _
    exact ⟨hinv, by simp⟩
  | cons k rest ih =>
    intro st hnd hinv hfresh
    have hk : k ∉ rest := (List.nodup_cons.mp hnd).1
    have hrest : rest.Nodup := (List.nodup_cons.mp hnd).2
    have hfreshk : ∀ kv ∈ st.assignment, ((kv.1 : Int)) ≠ k := by
      intro kv hkv heq
      exact hfresh kv hkv (heq ▸ List.mem_cons_self k rest)
    obtain ⟨hinv2, hprov, hperm1⟩ :=
      processJerseyGroup_inv pws st k hinv hfreshk
    have hfresh2 : ∀ kv ∈ (processJerseyGroup pws st k).assignment,
        ((kv.1 : Int)) ∉ rest := by
      intro kv hkv hmem
      rcases hprov kv hkv with h | h
      · exact hk (h ▸ hmem)
      · exact hfresh kv h (List.mem_cons_of_mem k hmem)
    obtain ⟨hinv3, hperm2⟩ := ih (processJerseyGroup pws st k) hrest hinv2 hfresh2
    rw [List.foldl_cons]
    refine ⟨hinv3, ?_⟩
    refine hperm2.trans ?_
    refine (List.Perm.append_right _ hperm1).trans ?_
    rw [List.flatMap_cons, List.append_assoc]

theorem placeNeedy_fold :
    ∀ (needy : List (Player × Option FootballPlayerRaw)) (st : FbPlaceState),
      FbInv st.assignment st.occupied →
      (∀ o ∈ st.inactive, o.slot = -1) →
      FbInv (needy.foldl placeNeedy st).assignment
        (needy.foldl placeNeedy st).occupied ∧
      (∀ o ∈ (needy.foldl placeNeedy st).inactive, o.slot = -1) ∧
      ((needy.foldl placeNeedy st).assignment.map payA ++
        (needy.foldl placeNeedy st).inactive.map payO).Perm
        ((st.assignment.map payA ++ st.inactive.map payO) ++ needy) := by
  intro needy
  induction needy with
  | nil =>
    intro st hinv hina
    exact ⟨hinv, hina, by simp⟩
  | cons p t ih =>
    intro st hinv hina
    rw [List.foldl_cons]
    cases hf : firstFreeSlot st.occupied with
    | some s =>
      have hstep : placeNeedy st p =
          { st with
            occupied := st.occupied ++ [s]
            assignment := mapSet st.assignment s (mkOrdered p (s : Int)) } := by
        unfold placeNeedy
        rw [hf]
      have hsnotocc : s ∉ st.occupied := by
        have h1 := List.find?_some hf
        simp only [Bool.not_eq_eq_eq_not, Bool.not_true] at h1
        intro hmem
        have h2 : st.occupied.contains s = true := List.elem_iff.mpr hmem
        rw [h1] at h2
        exact absurd h2 (by decide)
      have hsbnd : 1 ≤ s ∧ s ≤ 99 := by
        have := List.mem_of_find?_eq_some hf
        rw [List.mem_range'_1] at this
        omega
      obtain ⟨hnd, hocc, hbnd, hslot⟩ := hinv
      have hfr : ∀ kv ∈ st.assignment, kv.1 ≠ s := by
        intro kv hkv heq
        exact hsnotocc (heq ▸ hocc kv hkv)
      have hset : mapSet st.assignment s (mkOrdered p (s : Int)) =
          st.assignment ++ [(s, mkOrdered p (s : Int))] :=
        mapSet_fresh _ _ _ hfr
      have hinv2 : FbInv (placeNeedy st p).assignment
          (placeNeedy st p).occupied := by
        rw [hstep]
        refine ⟨?_, ?_, ?_, ?_⟩
        · show ((mapSet st.assignment s (mkOrdered p (s : Int))).map
            Prod.fst).Nodup
          rw [hset, List.map_append]
          simp only [List.nodup_append, List.map_cons, List.map_nil]
          refine ⟨hnd, by simp, ?_⟩
          intro a ha
          simp only [List.mem_singleton]
          rcases List.mem_map.mp ha with ⟨kv, hkv, rfl⟩
          intro h
          exact hfr kv hkv h
        · show ∀ kv ∈ mapSet st.assignment s (mkOrdered p (s : Int)),
            kv.1 ∈ st.occupied ++ [s]
          rw [hset]
          intro kv hkv
          rcases List.mem_append.mp hkv with h | h
          · exact List.mem_append_left _ (hocc kv h)
          · simp only [List.mem_singleton] at h
            subst h
            exact List.mem_append_right _ (by simp)
        · show ∀ kv ∈ mapSet st.assignment s (mkOrdered p (s : Int)),
            1 ≤ kv.1 ∧ kv.1 ≤ 99
          rw [hset]
          intro kv hkv
          rcases List.mem_append.mp hkv with h | h
          · exact hbnd kv h
          · simp only [List.mem_singleton] at h
            subst h
            exact hsbnd
        · show ∀ kv ∈ mapSet st.assignment s (mkOrdered p (s : Int)),
            kv.2.slot = (kv.1 : Int)
          rw [hset]
          intro kv hkv
          rcases List.mem_append.mp hkv with h | h
          · exact hslot kv h
          · simp only [List.mem_singleton] at h
            subst h
            rfl
      have hina2 : ∀ o ∈ (placeNeedy st p).inactive, o.slot = -1 := by
        rw [hstep]
        exact hina
      obtain ⟨hinv3, hina3, hperm⟩ := ih (placeNeedy st p) hinv2 hina2
      refine ⟨hinv3, hina3, ?_⟩
      have hmapeq : (placeNeedy st p).assignment.map payA =
          st.assignment.map payA ++ [p] := by
        rw [hstep]
        show (mapSet st.assignment s (mkOrdered p (s : Int))).map payA = _
        rw [hset, List.map_append]
        rfl
      have hinaeq : (placeNeedy st p).inactive = st.inactive := by
        rw [hstep]
      have hmid : ((placeNeedy st p).assignment.map payA ++
          (placeNeedy st p).inactive.map payO).Perm
          ((st.assignment.map payA ++ st.inactive.map payO) ++ [p]) := by
        rw [hmapeq, hinaeq]
        exact append_singleton_perm _ _ _
      refine hperm.trans ?_
      refine (List.Perm.append_right t hmid).trans ?_
      rw [List.append_assoc]
      exact List.Perm.refl _
    | none =>
      have hstep : placeNeedy st p =
          { st with inactive := st.inactive ++ [mkOrdered p (-1)] } := by
        unfold placeNeedy
        rw [hf]
      have hinv2 : FbInv (placeNeedy st p).assignment
          (placeNeedy st p).occupied := by
        rw [hstep]
        exact hinv
      have hina2 : ∀ o ∈ (placeNeedy st p).inactive, o.slot = -1 := by
        rw [hstep]
        intro o ho
        rcases List.mem_append.mp ho with h | h
        · exact hina o h
        · simp only [List.mem_singleton] at h
          subst h
          rfl
      obtain ⟨hinv3, hina3, hperm⟩ := ih (placeNeedy st p) hinv2 hina2
      refine ⟨hinv3, hina3, ?_⟩
      have hmapeq : (placeNeedy st p).assignment.map payA =
          st.assignment.map payA := by
        rw [hstep]
      have hinaeq : (placeNeedy st p).inactive.map payO =
          st.inactive.map payO ++ [p] := by
        rw [hstep]
        show (st.inactive ++ [mkOrdered p (-1)]).map payO = _
        rw [List.map_append]
        rfl
      have hmid : ((placeNeedy st p).assignment.map payA ++
          (placeNeedy st p).inactive.map payO).Perm
          ((st.assignment.map payA ++ st.inactive.map payO) ++ [p]) := by
        rw [hmapeq, hinaeq, ← List.append_assoc]
      refine hperm.trans ?_
      refine (List.Perm.append_right t hmid).trans ?_
      rw [List.append_assoc]
      exact List.Perm.refl _

theorem createOrderedFootballRoster_eq (roster : List Player)
    (stats : List FootballPlayerRaw) :
    createOrderedFootballRoster roster stats =
      ((fbFinalState roster stats).assignment.mergeSort
        (fun a b => decide (a.1 ≤ b.1))).map (fun kv => kv.2) ++
      (fbFinalState roster stats).inactive := rfl

theorem fbFinalState_spec (roster : List Player)
    (stats : List FootballPlayerRaw) :
    FbInv (fbFinalState roster stats).assignment
      (fbFinalState roster stats).occupied ∧
    (∀ o ∈ (fbFinalState roster stats).inactive, o.slot = -1) ∧
    ((fbFinalState roster stats).assignment.map payA ++
      (fbFinalState roster stats).inactive.map payO).Perm
      (playersWithStats roster stats) := by
  have hinv0 : FbInv ([] : List (Nat × OrderedFootballPlayer)) [] := by
    refine ⟨by simp, by simp, by simp, by simp⟩
  obtain ⟨hinv2, hperm2⟩ := assignNatural_fold (playersWithStats roster stats)
    (sortedJerseyKeys (playersWithStats roster stats)) ⟨[], [], []⟩
    (sortedJerseyKeys_nodup _) hinv0 (by simp)
  have hgroups : ((sortedJerseyKeys (playersWithStats roster stats)).flatMap
      (groupOf (playersWithStats roster stats))).Perm
      (playersWithStats roster stats) := by
    refine (flatMap_groupOf_perm _ (sortedJerseyKeys_nodup _) _).trans ?_
    have : (playersWithStats roster stats).filter (fun p =>
        (sortedJerseyKeys (playersWithStats roster stats)).contains
          (jerseyKey p.1)) = playersWithStats roster stats := by
      rw [List.filter_eq_self]
      intro p hp
      exact List.elem_iff.mpr (mem_sortedJerseyKeys _ p hp)
    rw [this]
  obtain ⟨hinv3, hina3, hperm3⟩ := placeNeedy_fold
    (assignNaturalSlots (playersWithStats roster stats)).needsSlot
    ⟨(assignNaturalSlots (playersWithStats roster stats)).assignment,
      (assignNaturalSlots (playersWithStats roster stats)).occupied, []⟩
    hinv2 (by simp)
  refine ⟨hinv3, hina3, ?_⟩
  refine hperm3.trans ?_
  show ((assignNaturalSlots (playersWithStats roster stats)).assignment.map
      payA ++ ([] : List OrderedFootballPlayer).map payO ++
    (assignNaturalSlots (playersWithStats roster stats)).needsSlot).Perm _
  rw [List.map_nil, List.append_nil]
  refine (hperm2.trans ?_)
  show (([] : List (Nat × OrderedFootballPlayer)).map payA ++ [] ++ _).Perm _
  rw [List.map_nil, List.append_nil, List.nil_append]
  exact hgroups

/-- C2: for every roster and stat-sheet input, the football slot assigner
never gives two active players the same slot: every entry is either
inactive (`slot = -1`) or holds a slot in 1–99, and the active-entry
slots are pairwise distinct. -/
theorem football_active_slots_injective (roster : List Player)
    (stats : List FootballPlayerRaw) :
    ((createOrderedFootballRoster roster stats).all
      (fun q => q.slot == -1 || (1 ≤ q.slot && q.slot ≤ 99))) = true ∧
    (((createOrderedFootballRoster roster stats).filter
        (fun q => q.slot != -1)).map (fun q => q.slot)).Nodup := by
  obtain ⟨⟨hnd, hocc, hbnd, hslot⟩, hina, hperm⟩ := fbFinalState_spec roster stats
  have hsortperm : ((fbFinalState roster stats).assignment.mergeSort
      (fun a b => decide (a.1 ≤ b.1))).Perm
      (fbFinalState roster stats).assignment := List.mergeSort_perm _ _
  constructor
  · rw [List.all_eq_true]
    intro q hq
    rw [createOrderedFootballRoster_eq] at hq
    rcases List.mem_append.mp hq with h | h
    · rcases List.mem_map.mp h with ⟨kv, hkv, rfl⟩
      have hkv2 := hsortperm.mem_iff.mp hkv
      have hb := hbnd kv hkv2
      have hs := hslot kv hkv2
      simp only [Bool.or_eq_true, Bool.and_eq_true, decide_eq_true_eq]
      right
      rw [hs]
      omega
    · simp only [Bool.or_eq_true, beq_iff_eq]
      left
      exact hina q h
  · rw [createOrderedFootballRoster_eq, List.filter_append]
    have hfilterI : (fbFinalState roster stats).inactive.filter
        (fun q => q.slot != -1) = [] := by
      rw [List.filter_eq_nil_iff]
      intro o ho
      rw [hina o ho]
      simp
    have hfilterA : (((fbFinalState roster stats).assignment.mergeSort
        (fun a b => decide (a.1 ≤ b.1))).map (fun kv => kv.2)).filter
        (fun q => q.slot != -1) =
        ((fbFinalState roster stats).assignment.mergeSort
          (fun a b => decide (a.1 ≤ b.1))).map (fun kv => kv.2) := by
      rw [List.filter_eq_self]
      intro q hq
      rcases List.mem_map.mp hq with ⟨kv, hkv, rfl⟩
      have hkv2 := hsortperm.mem_iff.mp hkv
      rw [hslot kv hkv2]
      have := (hbnd kv hkv2).1
      simp only [bne_iff_ne, ne_eq]
      intro hcon
      omega
    rw [hfilterI, hfilterA, List.append_nil, List.map_map]
    have hcong : ((fbFinalState roster stats).assignment.mergeSort
        (fun a b => decide (a.1 ≤ b.1))).map
        ((fun q : OrderedFootballPlayer => q.slot) ∘ (fun kv => kv.2)) =
        (((fbFinalState roster stats).assignment.mergeSort
          (fun a b => decide (a.1 ≤ b.1))).map Prod.fst).map
          (fun n : Nat => (n : Int)) := by
      rw [List.map_map]
      apply List.map_congr_left
      intro kv hkv
      exact hslot kv (hsortperm.mem_iff.mp hkv)
    rw [hcong]
    refine List.Nodup.map ?_ ?_
    · intro a b hab
      simp only [Int.natCast_inj] at hab
      exact hab
    · exact ((hsortperm.map Prod.fst).nodup_iff).mpr hnd

/-- C3, amended: the football slot assigner loses no roster entry — the
underlying players of the output are a permutation of the roster, and active
plus inactive counts sum to the roster length. (The volleyball ordering
does not satisfy the claim; see the counterexample.) -/
theorem football_roster_preserved (roster : List Player)
    (stats : List FootballPlayerRaw) :
    ((createOrderedFootballRoster roster stats).map
      (fun q => q.player)).Perm roster ∧
    ((createOrderedFootballRoster roster stats).filter
        (fun q => q.slot != -1)).length +
      ((createOrderedFootballRoster roster stats).filter
        (fun q => !(q.slot != -1))).length = roster.length := by
  obtain ⟨⟨hnd, hocc, hbnd, hslot⟩, hina, hperm⟩ := fbFinalState_spec roster stats
  have hsortperm : ((fbFinalState roster stats).assignment.mergeSort
      (fun a b => decide (a.1 ≤ b.1))).Perm
      (fbFinalState roster stats).assignment := List.mergeSort_perm _ _
  have hmain : ((createOrderedFootballRoster roster stats).map
      (fun q => q.player)).Perm roster := by
    rw [createOrderedFootballRoster_eq, List.map_append, List.map_map]
    have h1 : ((fbFinalState roster stats).assignment.mergeSort
        (fun a b => decide (a.1 ≤ b.1))).map
        ((fun q : OrderedFootballPlayer => q.player) ∘ (fun kv => kv.2)) =
        (((fbFinalState roster stats).assignment.mergeSort
          (fun a b => decide (a.1 ≤ b.1))).map payA).map Prod.fst := by
      rw [List.map_map]
      rfl
    have h2 : (fbFinalState roster stats).inactive.map
        (fun q : OrderedFootballPlayer => q.player) =
        ((fbFinalState roster stats).inactive.map payO).map Prod.fst := by
      rw [List.map_map]
      rfl
    rw [h1, h2, ← List.map_append]
    have h3 := List.Perm.append_right
      ((fbFinalState roster stats).inactive.map payO) (hsortperm.map payA)
    have h4 := (h3.trans hperm).map Prod.fst
    rw [playersWithStats_map_fst] at h4
    exact h4
  refine ⟨hmain, ?_⟩
  have hlen : (createOrderedFootballRoster roster stats).length =
      roster.length := by
    have := hmain.length_eq
    rw [List.length_map] at this
    exact this
  have hpart := (List.filter_append_perm
    (fun q : OrderedFootballPlayer => q.slot != -1)
    (createOrderedFootballRoster roster stats)).length_eq
  rw [List.length_append, hlen] at hpart
  exact hpart

/-- C3, counterexample (volleyball): two roster players share jersey 7;
`createOrderedVolleyballRoster` keeps only the later one — exactly one of
the 99 rows carries a player although the roster has two entries, and the
first player ("Alpha") appears nowhere in the output, so the volleyball
ordering both drops roster entries and breaks
`active + inactive = roster.length` (it has no inactive list at all). -/
theorem volleyball_duplicate_dropped :
    ((createOrderedVolleyballRoster
        [⟨"Alpha", "Ann", "7", "OH", "", "", "", "", "", "", "", ""⟩,
         ⟨"Beta", "Bea", "7", "S", "", "", "", "", "", "", "", ""⟩] []).filter
      (fun r => r.player.isSome)).length = 1 ∧
    ([(⟨"Alpha", "Ann", "7", "OH", "", "", "", "", "", "", "", ""⟩ : RosterPlayer),
      ⟨"Beta", "Bea", "7", "S", "", "", "", "", "", "", "", ""⟩].length = 2) ∧
    (1 : Nat) ≠ 2 ∧
    (createOrderedVolleyballRoster
        [⟨"Alpha", "Ann", "7", "OH", "", "", "", "", "", "", "", ""⟩,
         ⟨"Beta", "Bea", "7", "S", "", "", "", "", "", "", "", ""⟩] []).all
      (fun r => r.player.all (fun q => q.lastName != "Alpha")) = true := by
  refine ⟨by decide, by decide, by decide, by decide⟩

/-! ## C5/C6 — the merged-digit splitter -/

theorem natDigitsAux_zero : ∀ fuel, natDigitsAux fuel 0 = [] := by
  intro fuel
  cases fuel with
  | zero => rfl
  | succ f => simp [natDigitsAux]

theorem natDigitsAux_length_le_one (n : Nat) (hn : n ≤ 9) :
    ∀ fuel, (natDigitsAux fuel n).length ≤ 1 := by
  intro fuel
  cases fuel with
  | zero => simp [natDigitsAux]
  | succ f =>
    by_cases h0 : n = 0
    · simp [natDigitsAux, h0]
    · have hdiv : n / 10 = 0 := by omega
      simp [natDigitsAux, h0, hdiv, natDigitsAux_zero]

theorem natDigitsAux_length_le_two (n : Nat) (hn : n ≤ 99) :
    ∀ fuel, (natDigitsAux fuel n).length ≤ 2 := by
  intro fuel
  cases fuel with
  | zero => simp [natDigitsAux]
  | succ f =>
    by_cases h0 : n = 0
    · simp [natDigitsAux, h0]
    · have hdiv : n / 10 ≤ 9 := by omega
      simp only [natDigitsAux, h0, if_false, List.length_cons]
      have := natDigitsAux_length_le_one (n / 10) hdiv f
      omega

theorem natDigitsBE_length (n : Nat) (hn : n ≤ 99) :
    1 ≤ (natDigitsBE n).length ∧ (natDigitsBE n).length ≤ 2 := by
  constructor
  · have := natDigitsBE_ne_nil n
    cases h : natDigitsBE n with
    | nil => exact absurd h this
    | cons a t => simp
  · by_cases h0 : n = 0
    · simp [natDigitsBE, h0]
    · simp only [natDigitsBE, h0, if_false, List.length_reverse]
      exact natDigitsAux_length_le_two n hn n

theorem mem_ite_nil {α : Type} {c : Prop} [Decidable c] {l : List α} {a : α}
    (h : a ∈ (if c then ([] : List α) else l)) : ¬c ∧ a ∈ l := by
  by_cases hc : c
  · rw [if_pos hc] at h
    cases h
  · rw [if_neg hc] at h
    exact ⟨hc, h⟩

theorem bestByH_mem : ∀ (l : List Split5) (t : Split5),
    bestByH l = some t → t ∈ l := by
  have haux : ∀ (xs : List Split5) (x : Split5),
      xs.foldl (fun acc y => if y.h > acc.h then y else acc) x ∈ x :: xs := by
    intro xs
    induction xs with
    | nil => intro x; simp
    | cons y ys ih =>
      intro x
      rw [List.foldl_cons]
      have := ih (if y.h > x.h then y else x)
      rcases List.mem_cons.mp this with h | h
      · rw [h]
        by_cases hc : y.h > x.h
        · rw [if_pos hc]
          exact List.mem_cons_of_mem _ (List.mem_cons_self _ _)
        · rw [if_neg hc]
          exact List.mem_cons_self _ _
      · exact List.mem_cons_of_mem _ (List.mem_cons_of_mem _ h)
  intro l t h
  cases l with
  | nil => cases h
  | cons x xs =>
    unfold bestByH at h
    injection h with h2
    rw [← h2]
    exact haux xs x

theorem bestByH_le : ∀ (l : List Split5) (t : Split5),
    bestByH l = some t → ∀ u ∈ l, u.h ≤ t.h := by
  have haux : ∀ (xs : List Split5) (x : Split5) (u : Split5), u ∈ x :: xs →
      u.h ≤ (xs.foldl (fun acc y => if y.h > acc.h then y else acc) x).h := by
    intro xs
    induction xs with
    | nil =>
      intro x u hu
      rcases List.mem_cons.mp hu with h | h
      · rw [h, List.foldl_nil]
      · cases h
    | cons y ys ih =>
      intro x u hu
      rw [List.foldl_cons]
      have hstep : x.h ≤ (if y.h > x.h then y else x).h ∧
          y.h ≤ (if y.h > x.h then y else x).h := by
        by_cases hc : y.h > x.h
        · rw [if_pos hc]
          omega
        · rw [if_neg hc]
          omega
      rcases List.mem_cons.mp hu with h | h
      · rw [h]
        exact le_trans hstep.1
          (ih (if y.h > x.h then y else x) _
            (List.mem_cons_self _ _))
      · rcases List.mem_cons.mp h with h2 | h2
        · rw [h2]
          exact le_trans hstep.2
            (ih (if y.h > x.h then y else x) _
              (List.mem_cons_self _ _))
        · exact ih (if y.h > x.h then y else x) u
            (List.mem_cons_of_mem _ h2)
  intro l t h u hu
  cases l with
  | nil => cases hu
  | cons x xs =>
    unfold bestByH at h
    injection h with h2
    rw [← h2]
    exact haux xs x u hu

theorem bestByH_ne_none : ∀ (l : List Split5), l ≠ [] → (bestByH l).isSome := by
  intro l h
  cases l with
  | nil => exact absurd rfl h
  | cons x xs => rfl

theorem results6_eq_nil_of_short (m : List Nat) (ab : Nat)
    (h : m.length < 6) : results6 m ab = [] := by
  unfold results6
  have hfil : [1, 2].filter (fun rl => rl < m.length - 4) = [] := by
    rw [List.filter_eq_nil_iff]
    intro a ha
    rcases List.mem_cons.mp ha with h1 | h1
    · subst h1
      simp only [decide_eq_true_eq, not_lt]
      omega
    · rcases List.mem_cons.mp h1 with h2 | h2
      · subst h2
        simp only [decide_eq_true_eq, not_lt]
        omega
      · cases h2
  simp [hfil]

theorem results5_eq_nil_of_short (m : List Nat) (ab : Nat)
    (h : m.length < 5) : results5 m ab = [] := by
  unfold results5
  have hfil : [1, 2].filter (fun rl => rl < m.length - 3) = [] := by
    rw [List.filter_eq_nil_iff]
    intro a ha
    rcases List.mem_cons.mp ha with h1 | h1
    · subst h1
      simp only [decide_eq_true_eq, not_lt]
      omega
    · rcases List.mem_cons.mp h1 with h2 | h2
      · subst h2
        simp only [decide_eq_true_eq, not_lt]
        omega
      · cases h2
  simp [hfil]

theorem splitRH2B3BHR_eq (m : List Nat) (ab : Nat) :
    splitRH2B3BHR m ab =
      if m.length < 4 then none
      else if results6 m ab ≠ [] then bestByH (results6 m ab)
      else if m.length < 5 then none
      else bestByH (results5 m ab) := by
  unfold splitRH2B3BHR
  by_cases h4 : m.length < 4
  · rw [if_pos h4, if_pos h4]
  · rw [if_neg h4, if_neg h4]
    by_cases h6 : 6 ≤ m.length
    · rw [if_pos h6]
      by_cases hr : results6 m ab = []
      · rw [hr]
        have h5 : ¬ m.length < 5 := by omega
        simp [h5]
      · obtain ⟨x, xs, hxx⟩ : ∃ x xs, results6 m ab = x :: xs := by
          cases hcc : results6 m ab with
          | nil => exact absurd hcc hr
          | cons a b => exact ⟨a, b, rfl⟩
        rw [hxx]
        simp
    · rw [if_neg h6]
      have hr : results6 m ab = [] := results6_eq_nil_of_short m ab (by omega)
      rw [hr]
      simp

theorem mem_ite_nil_else {α : Type} {c : Prop} [Decidable c] {l : List α}
    {a : α} (h : a ∈ (if c then l else ([] : List α))) : c ∧ a ∈ l := by
  by_cases hc : c
  · rw [if_pos hc] at h
    exact ⟨hc, h⟩
  · rw [if_neg hc] at h
    cases h

theorem results5_sound (m : List Nat) (ab : Nat) (u : Split5)
    (hu : u ∈ results5 m ab) :
    u.d2 ≤ u.h ∧ u.d3 ≤ u.h ∧ u.hr ≤ u.h ∧ u.d2 + u.d3 + u.hr ≤ u.h ∧
    u.h ≤ maxHof ab ∧ u.r ≤ maxABof ab := by
  unfold results5 at hu
  simp only [List.mem_flatMap, List.mem_filter] at hu
  obtain ⟨rl, -, hu1⟩ := hu
  obtain ⟨hr_ok, hu2⟩ := mem_ite_nil hu1
  simp only [List.mem_flatMap, List.mem_filter] at hu2
  obtain ⟨hl, -, hu3⟩ := hu2
  obtain ⟨hh_ok, hu4⟩ := mem_ite_nil hu3
  simp only [List.mem_flatMap, List.mem_filter] at hu4
  obtain ⟨d2l, -, hu5⟩ := hu4
  obtain ⟨hd2_ok, hu6⟩ := mem_ite_nil hu5
  simp only [List.mem_flatMap, List.mem_filter] at hu6
  obtain ⟨d3l, -, hu7⟩ := hu6
  obtain ⟨hd3_ok, hu8⟩ := mem_ite_nil hu7
  obtain ⟨-, hu9⟩ := mem_ite_nil hu8
  obtain ⟨hhr_ok, hu10⟩ := mem_ite_nil hu9
  obtain ⟨hsum_ok, hu11⟩ := mem_ite_nil hu10
  have heq := List.mem_singleton.mp hu11
  subst heq
  simp only [not_lt] at hr_ok hh_ok hd2_ok hd3_ok hhr_ok hsum_ok
  exact ⟨hd2_ok, hd3_ok, hhr_ok, hsum_ok, hh_ok, hr_ok⟩

theorem results6_sound (m : List Nat) (ab : Nat) (u : Split5)
    (hu : u ∈ results6 m ab) :
    u.d2 ≤ u.h ∧ u.d3 ≤ u.h ∧ u.hr ≤ u.h ∧ u.d2 + u.d3 + u.hr ≤ u.h ∧
    u.h ≤ maxHof ab ∧ u.r ≤ maxABof ab := by
  unfold results6 at hu
  simp only [List.mem_flatMap, List.mem_filter] at hu
  obtain ⟨rl, -, hu1⟩ := hu
  obtain ⟨hr_ok, hu2⟩ := mem_ite_nil hu1
  simp only [List.mem_flatMap, List.mem_filter] at hu2
  obtain ⟨hl, -, hu3⟩ := hu2
  obtain ⟨hh_ok, hu4⟩ := mem_ite_nil hu3
  simp only [List.mem_flatMap, List.mem_filter] at hu4
  obtain ⟨d2l, -, hu5⟩ := hu4
  obtain ⟨hd2_ok, hu6⟩ := mem_ite_nil hu5
  simp only [List.mem_flatMap, List.mem_filter] at hu6
  obtain ⟨d3l, -, hu7⟩ := hu6
  obtain ⟨hd3_ok, hu8⟩ := mem_ite_nil hu7
  simp only [List.mem_flatMap, List.mem_filter] at hu8
  obtain ⟨hrl, -, hu9⟩ := hu8
  obtain ⟨hhr_ok, hu10⟩ := mem_ite_nil hu9
  obtain ⟨hsum_ok, hu11⟩ := mem_ite_nil hu10
  obtain ⟨-, hu12⟩ := mem_ite_nil hu11
  by_cases hxb : digitsValBE ((m.drop (rl + hl)).drop (d2l + d3l) |>.drop hrl) =
      digitsValBE ((m.drop (rl + hl)).take d2l) +
        digitsValBE (((m.drop (rl + hl)).drop d2l).take d3l) +
        digitsValBE (((m.drop (rl + hl)).drop (d2l + d3l)).take hrl)
  · rw [if_pos hxb] at hu12
    have heq := List.mem_singleton.mp hu12
    subst heq
    simp only [not_lt] at hr_ok hh_ok hd2_ok hd3_ok hhr_ok hsum_ok
    exact ⟨hd2_ok, hd3_ok, hhr_ok, hsum_ok, hh_ok, hr_ok⟩
  · rw [if_neg hxb] at hu12
    cases hu12

theorem results5_complete (r h d2 d3 hr ab : Nat)
    (hr99 : r ≤ 99) (hh99 : h ≤ 99) (hd299 : d2 ≤ 99) (hd399 : d3 ≤ 99)
    (hhr99 : hr ≤ 99)
    (hrab : r ≤ maxABof ab) (hhab : h ≤ maxHof ab)
    (hc2 : d2 ≤ h) (hc3 : d3 ≤ h) (hc4 : hr ≤ h) (hc5 : d2 + d3 + hr ≤ h) :
    (⟨r, h, d2, d3, hr⟩ : Split5) ∈ results5
      (natDigitsBE r ++ (natDigitsBE h ++ (natDigitsBE d2 ++
        (natDigitsBE d3 ++ natDigitsBE hr)))) ab := by
  obtain ⟨hlr1, hlr2⟩ := natDigitsBE_length r hr99
  obtain ⟨hlh1, hlh2⟩ := natDigitsBE_length h hh99
  obtain ⟨hl21, hl22⟩ := natDigitsBE_length d2 hd299
  obtain ⟨hl31, hl32⟩ := natDigitsBE_length d3 hd399
  obtain ⟨hlhr1, hlhr2⟩ := natDigitsBE_length hr hhr99
  have hlen : (natDigitsBE r ++ (natDigitsBE h ++ (natDigitsBE d2 ++
      (natDigitsBE d3 ++ natDigitsBE hr)))).length =
      (natDigitsBE r).length + (natDigitsBE h).length +
      (natDigitsBE d2).length + (natDigitsBE d3).length +
      (natDigitsBE hr).length := by
    simp only [List.length_append]
    omega
  have hdrop1 : (natDigitsBE r ++ (natDigitsBE h ++ (natDigitsBE d2 ++
      (natDigitsBE d3 ++ natDigitsBE hr)))).drop
      ((natDigitsBE r).length + (natDigitsBE h).length) =
      natDigitsBE d2 ++ (natDigitsBE d3 ++ natDigitsBE hr) := by
    rw [← List.drop_drop, List.drop_left, List.drop_left]
  have hdrop2 : (natDigitsBE d2 ++ (natDigitsBE d3 ++ natDigitsBE hr)).drop
      ((natDigitsBE d2).length + (natDigitsBE d3).length) =
      natDigitsBE hr := by
    rw [← List.drop_drop, List.drop_left, List.drop_left]
  unfold results5
  simp only [List.mem_flatMap, List.mem_filter]
  refine ⟨(natDigitsBE r).length, ⟨?_, ?_⟩, ?_⟩
  · simp only [List.mem_cons, List.mem_singleton]
    omega
  · simp only [decide_eq_true_eq]
    omega
  · rw [List.take_left, digitsValBE_natDigitsBE,
      if_neg (by omega : ¬ r > maxABof ab)]
    simp only [List.mem_flatMap, List.mem_filter]
    refine ⟨(natDigitsBE h).length, ⟨?_, ?_⟩, ?_⟩
    · simp only [List.mem_cons, List.mem_singleton]
      omega
    · simp only [decide_eq_true_eq]
      omega
    · rw [List.drop_left, List.take_left, digitsValBE_natDigitsBE,
        if_neg (by omega : ¬ h > maxHof ab), hdrop1]
      simp only [List.mem_flatMap, List.mem_filter]
      refine ⟨(natDigitsBE d2).length, ⟨?_, ?_⟩, ?_⟩
      · simp only [List.mem_cons, List.mem_singleton]
        omega
      · simp only [decide_eq_true_eq, List.length_append]
        omega
      · rw [List.take_left, digitsValBE_natDigitsBE,
          if_neg (by omega : ¬ d2 > h)]
        simp only [List.mem_flatMap, List.mem_filter]
        refine ⟨(natDigitsBE d3).length, ⟨?_, ?_⟩, ?_⟩
        · simp only [List.mem_cons, List.mem_singleton]
          omega
        · simp only [decide_eq_true_eq, List.length_append]
          omega
        · rw [List.drop_left, List.take_left, digitsValBE_natDigitsBE,
            if_neg (by omega : ¬ d3 > h), hdrop2]
          rw [if_neg (by omega : ¬ ((natDigitsBE hr).length = 0 ∨
            (natDigitsBE hr).length > 2))]
          rw [digitsValBE_natDigitsBE,
            if_neg (by omega : ¬ hr > h),
            if_neg (by omega : ¬ d2 + d3 + hr > h)]
          exact List.mem_singleton.mpr rfl

/-- C5, counterexample: the quintuple R=11, H=2, 2B=1, 3B=0, HR=1 with
AB=12 satisfies every domain constraint and concatenates to the digit
string 112101, yet the splitter returns (1, 12, 1, 0, 1) — the
largest-Hits reading — not the original values: the round trip fails when
the digit string admits more than one accepted partition. -/
theorem splitter_roundtrip_counterexample :
    (2 ≤ 12 ∧ 1 ≤ 2 ∧ 0 ≤ 2 ∧ 1 ≤ 2 ∧ 1 + 0 + 1 ≤ 2) ∧
    natDigitsBE 11 ++ (natDigitsBE 2 ++ (natDigitsBE 1 ++
      (natDigitsBE 0 ++ natDigitsBE 1))) = [1, 1, 2, 1, 0, 1] ∧
    splitRH2B3BHR [1, 1, 2, 1, 0, 1] 12 = some ⟨1, 12, 1, 0, 1⟩ ∧
    (⟨1, 12, 1, 0, 1⟩ : Split5) ≠ ⟨11, 2, 1, 0, 1⟩ := by
  refine ⟨by decide, by decide, by decide, by decide⟩

/-- C5, amended: for 1–2-digit values satisfying the domain constraints,
the concatenated digit string always yields a result (never `none`); the
original quintuple is always among the accepted 5-value partitions; every
returned quintuple satisfies the arithmetic constraints (so a quintuple
violating `2B+3B+HR ≤ H` is never returned); and the splitter recovers
exactly the original values whenever the original is the only accepted
5-value partition and the 6-value pass accepts nothing — with ambiguity
resolved toward the largest Hits value otherwise, as the counterexample
shows. -/
theorem splitter_amended_roundtrip :
    ∀ r h d2 d3 hr ab : Nat,
      r ≤ 99 → h ≤ 99 → d2 ≤ 99 → d3 ≤ 99 → hr ≤ 99 →
      r ≤ maxABof ab → h ≤ maxHof ab → d2 ≤ h → d3 ≤ h → hr ≤ h →
      d2 + d3 + hr ≤ h →
      ((⟨r, h, d2, d3, hr⟩ : Split5) ∈ results5
        (natDigitsBE r ++ (natDigitsBE h ++ (natDigitsBE d2 ++
          (natDigitsBE d3 ++ natDigitsBE hr)))) ab) ∧
      (splitRH2B3BHR (natDigitsBE r ++ (natDigitsBE h ++ (natDigitsBE d2 ++
        (natDigitsBE d3 ++ natDigitsBE hr)))) ab).isSome ∧
      (∀ u, splitRH2B3BHR (natDigitsBE r ++ (natDigitsBE h ++
          (natDigitsBE d2 ++ (natDigitsBE d3 ++ natDigitsBE hr)))) ab =
          some u →
        u.d2 ≤ u.h ∧ u.d3 ≤ u.h ∧ u.hr ≤ u.h ∧ u.d2 + u.d3 + u.hr ≤ u.h) ∧
      ((∀ u ∈ results5 (natDigitsBE r ++ (natDigitsBE h ++ (natDigitsBE d2 ++
          (natDigitsBE d3 ++ natDigitsBE hr)))) ab,
          u = (⟨r, h, d2, d3, hr⟩ : Split5)) →
        results6 (natDigitsBE r ++ (natDigitsBE h ++ (natDigitsBE d2 ++
          (natDigitsBE d3 ++ natDigitsBE hr)))) ab = [] →
        splitRH2B3BHR (natDigitsBE r ++ (natDigitsBE h ++ (natDigitsBE d2 ++
          (natDigitsBE d3 ++ natDigitsBE hr)))) ab =
          some ⟨r, h, d2, d3, hr⟩) := by
  intro r h d2 d3 hr ab hr99 hh99 hd299 hd399 hhr99 hrab hhab hc2 hc3 hc4 hc5
  have hmem := results5_complete r h d2 d3 hr ab hr99 hh99 hd299 hd399 hhr99
    hrab hhab hc2 hc3 hc4 hc5
  have hne5 : results5 (natDigitsBE r ++ (natDigitsBE h ++ (natDigitsBE d2 ++
      (natDigitsBE d3 ++ natDigitsBE hr)))) ab ≠ [] := by
    intro hnil
    rw [hnil] at hmem
    cases hmem
  have hlen5 : 5 ≤ (natDigitsBE r ++ (natDigitsBE h ++ (natDigitsBE d2 ++
      (natDigitsBE d3 ++ natDigitsBE hr)))).length := by
    obtain ⟨hx, -⟩ := natDigitsBE_length r hr99
    obtain ⟨hx2, -⟩ := natDigitsBE_length h hh99
    obtain ⟨hx3, -⟩ := natDigitsBE_length d2 hd299
    obtain ⟨hx4, -⟩ := natDigitsBE_length d3 hd399
    obtain ⟨hx5, -⟩ := natDigitsBE_length hr hhr99
    simp only [List.length_append]
    omega
  have heq := splitRH2B3BHR_eq (natDigitsBE r ++ (natDigitsBE h ++
    (natDigitsBE d2 ++ (natDigitsBE d3 ++ natDigitsBE hr)))) ab
  rw [if_neg (show ¬ (natDigitsBE r ++ (natDigitsBE h ++ (natDigitsBE d2 ++
      (natDigitsBE d3 ++ natDigitsBE hr)))).length < 4 by omega),
    if_neg (show ¬ (natDigitsBE r ++ (natDigitsBE h ++ (natDigitsBE d2 ++
      (natDigitsBE d3 ++ natDigitsBE hr)))).length < 5 by omega)] at heq
  refine ⟨hmem, ?_, ?_, ?_⟩
  · rw [heq]
    by_cases h6 : results6 (natDigitsBE r ++ (natDigitsBE h ++
        (natDigitsBE d2 ++ (natDigitsBE d3 ++ natDigitsBE hr)))) ab = []
    · rw [if_neg (by simp [h6])]
      exact bestByH_ne_none _ hne5
    · rw [if_pos h6]
      exact bestByH_ne_none _ h6
  · intro u hu
    rw [heq] at hu
    by_cases h6 : results6 (natDigitsBE r ++ (natDigitsBE h ++
        (natDigitsBE d2 ++ (natDigitsBE d3 ++ natDigitsBE hr)))) ab = []
    · rw [if_neg (by simp [h6])] at hu
      have := results5_sound _ ab u (bestByH_mem _ u hu)
      exact ⟨this.1, this.2.1, this.2.2.1, this.2.2.2.1⟩
    · rw [if_pos h6] at hu
      have := results6_sound _ ab u (bestByH_mem _ u hu)
      exact ⟨this.1, this.2.1, this.2.2.1, this.2.2.2.1⟩
  · intro huniq h6nil
    rw [heq, if_neg (by simp [h6nil])]
    obtain ⟨t, ht⟩ := Option.isSome_iff_exists.mp (bestByH_ne_none _ hne5)
    rw [ht, huniq t (bestByH_mem _ t ht)]

/-- C5 witness: the quintuple R=2, H=2, 2B=0, 3B=0, HR=1 with AB=2
("22001") has a unique accepted partition, and the splitter recovers it. -/
theorem splitter_amended_roundtrip_witness :
    splitRH2B3BHR (natDigitsBE 2 ++ (natDigitsBE 2 ++ (natDigitsBE 0 ++
      (natDigitsBE 0 ++ natDigitsBE 1)))) 2 = some ⟨2, 2, 0, 0, 1⟩ :=
  (splitter_amended_roundtrip 2 2 0 0 1 2 (by decide) (by decide) (by decide)
    (by decide) (by decide) (by decide) (by decide) (by decide) (by decide)
    (by decide) (by decide)).2.2.2 (by decide) (by decide)

/-- C6, counterexample: two failures of the stated policy. (1) On the
digit string 110000 (AB written as 0), the 6-value pass accepts exactly
one partition, (1,1,0,0,0), and the splitter returns it even though the
5-value partition (1,10,0,0,0) — also satisfying every arithmetic
constraint — has the larger Hits value. (2) On the 4-digit token 1234 the
splitter accepts no partition and returns none, yet `parseBattingTokens`
does populate R from the merged token (its first digit) instead of
leaving the fields unset. -/
theorem splitter_policy_counterexample :
    (splitRH2B3BHR [1, 1, 0, 0, 0, 0] 0 = some ⟨1, 1, 0, 0, 0⟩ ∧
     (⟨1, 10, 0, 0, 0⟩ : Split5) ∈ results5 [1, 1, 0, 0, 0, 0] 0 ∧
     (10 : Nat) > 1) ∧
    (splitRH2B3BHR [1, 2, 3, 4] 0 = none ∧
     parseMergedRH [1, 2, 3, 4] 0 = ⟨1, 0, 0, 0, 0⟩ ∧
     (⟨1, 0, 0, 0, 0⟩ : Split5) ≠ ⟨0, 0, 0, 0, 0⟩) := by
  refine ⟨⟨by decide, by decide, by decide⟩, by decide, by decide, by decide⟩

/-- C6, amended: the ambiguity policy of the splitter holds pass-by-pass — a
returned partition always belongs to the pass that produced it (the
6-value pass is consulted first) and carries the largest Hits value within
that pass; a `none` result means neither pass accepted any partition, and
then a merged token of length ≥ 5 leaves R/H/2B/3B/HR unset (all zero),
while a 4-digit token (on which the splitter always returns none) falls
back to populating R with the first digit of the token, and a 1–3-digit token
is read entirely as R. -/
theorem splitter_policy_amended :
    (∀ (m : List Nat) (ab : Nat) (t : Split5),
      splitRH2B3BHR m ab = some t →
      (results6 m ab ≠ [] →
        t ∈ results6 m ab ∧ ∀ u ∈ results6 m ab, u.h ≤ t.h) ∧
      (results6 m ab = [] →
        t ∈ results5 m ab ∧ ∀ u ∈ results5 m ab, u.h ≤ t.h)) ∧
    (∀ (m : List Nat) (ab : Nat),
      splitRH2B3BHR m ab = none →
      results6 m ab = [] ∧ results5 m ab = []) ∧
    (∀ (m : List Nat) (ab : Nat), 5 ≤ m.length →
      splitRH2B3BHR m ab = none → parseMergedRH m ab = ⟨0, 0, 0, 0, 0⟩) ∧
    (∀ (m : List Nat) (ab : Nat), m.length = 4 →
      splitRH2B3BHR m ab = none ∧
      parseMergedRH m ab = ⟨m.headD 0, 0, 0, 0, 0⟩) := by
  have hnone : ∀ (m : List Nat) (ab : Nat), splitRH2B3BHR m ab = none →
      results6 m ab = [] ∧ results5 m ab = [] := by
    intro m ab hn
    rw [splitRH2B3BHR_eq] at hn
    by_cases h4 : m.length < 4
    · exact ⟨results6_eq_nil_of_short m ab (by omega),
        results5_eq_nil_of_short m ab (by omega)⟩
    · rw [if_neg h4] at hn
      by_cases h6 : results6 m ab = []
      · refine ⟨h6, ?_⟩
        rw [if_neg (by simp [h6])] at hn
        by_cases h5 : m.length < 5
        · exact results5_eq_nil_of_short m ab h5
        · rw [if_neg h5] at hn
          cases hcc : results5 m ab with
          | nil => rfl
          | cons x xs =>
            rw [hcc] at hn
            cases hn
      · rw [if_pos h6] at hn
        exfalso
        cases hcc : results6 m ab with
        | nil => exact h6 hcc
        | cons x xs =>
          rw [hcc] at hn
          cases hn
  refine ⟨?_, hnone, ?_, ?_⟩
  · intro m ab t ht
    rw [splitRH2B3BHR_eq] at ht
    by_cases h4 : m.length < 4
    · rw [if_pos h4] at ht
      cases ht
    · rw [if_neg h4] at ht
      constructor
      · intro h6
        rw [if_pos h6] at ht
        exact ⟨bestByH_mem _ t ht, bestByH_le _ t ht⟩
      · intro h6
        rw [if_neg (by simp [h6])] at ht
        by_cases h5 : m.length < 5
        · rw [if_pos h5] at ht
          cases ht
        · rw [if_neg h5] at ht
          exact ⟨bestByH_mem _ t ht, bestByH_le _ t ht⟩
  · intro m ab h5 hn
    unfold parseMergedRH
    rw [if_pos h5, hn]
    rfl
  · intro m ab h4
    have hn : splitRH2B3BHR m ab = none := by
      rw [splitRH2B3BHR_eq, if_neg (by omega),
        if_neg (by simp [results6_eq_nil_of_short m ab (by omega)]),
        if_pos (by omega)]
    refine ⟨hn, ?_⟩
    unfold parseMergedRH
    rw [if_neg (by omega), if_pos h4, hn]

/-- C6 witness: policy conjuncts applied at the digit strings 112101
(ambiguous, largest Hits wins in its pass) and 1234 (no accepted
partition; R falls back to the first digit). -/
theorem splitter_policy_amended_witness :
    (⟨1, 12, 1, 0, 1⟩ : Split5) ∈ results5 [1, 1, 2, 1, 0, 1] 12 ∧
    splitRH2B3BHR [1, 2, 3, 4] 0 = none ∧
    parseMergedRH [1, 2, 3, 4] 0 = ⟨1, 0, 0, 0, 0⟩ :=
  ⟨((splitter_policy_amended.1 [1, 1, 2, 1, 0, 1] 12 ⟨1, 12, 1, 0, 1⟩
      (by decide)).2 (by decide)).1,
   (splitter_policy_amended.2.2.2 [1, 2, 3, 4] 0 rfl).1,
   (splitter_policy_amended.2.2.2 [1, 2, 3, 4] 0 rfl).2⟩

/-- C2 witness: the slot-injectivity invariant at a concrete one-player
roster. -/
theorem football_active_slots_injective_witness :
    ((createOrderedFootballRoster [⟨"5", "Ann Alpha", "", "", "", "", ""⟩]
        []).all
      (fun q => q.slot == -1 || (1 ≤ q.slot && q.slot ≤ 99))) = true ∧
    (((createOrderedFootballRoster [⟨"5", "Ann Alpha", "", "", "", "", ""⟩]
        []).filter (fun q => q.slot != -1)).map (fun q => q.slot)).Nodup :=
  football_active_slots_injective [⟨"5", "Ann Alpha", "", "", "", "", ""⟩] []

/-- C3 witness: roster preservation at a concrete two-player roster with a
duplicate jersey. -/
theorem football_roster_preserved_witness :
    ((createOrderedFootballRoster
        [⟨"7", "Ann Alpha", "", "", "", "", ""⟩,
         ⟨"7", "Bea Beta", "", "", "", "", ""⟩] []).map
      (fun q => q.player)).Perm
      [⟨"7", "Ann Alpha", "", "", "", "", ""⟩,
       ⟨"7", "Bea Beta", "", "", "", "", ""⟩] ∧
    ((createOrderedFootballRoster
        [⟨"7", "Ann Alpha", "", "", "", "", ""⟩,
         ⟨"7", "Bea Beta", "", "", "", "", ""⟩] []).filter
        (fun q => q.slot != -1)).length +
      ((createOrderedFootballRoster
        [⟨"7", "Ann Alpha", "", "", "", "", ""⟩,
         ⟨"7", "Bea Beta", "", "", "", "", ""⟩] []).filter
        (fun q => !(q.slot != -1))).length = 2 :=
  football_roster_preserved
    [⟨"7", "Ann Alpha", "", "", "", "", ""⟩,
     ⟨"7", "Bea Beta", "", "", "", "", ""⟩] []

/-- C7 witness: the amended classifier agrees with the code on the
all-empty player (General). -/
theorem football_classify_amended_witness :
    getFootballCatStatsCategory
      ⟨"1", "Empty Player", none, none, none, none, none, none, none⟩ =
      amendedFootballClassify 0 0 0 0 0 0 :=
  football_classify_amended.1
    ⟨"1", "Empty Player", none, none, none, none, none, none, none⟩
